import Mathlib

/-!
Shallow embedding of `server.js` (the-scoop REST service): the in-memory
entity store, the vote engine, the route resolver and the per-route
handlers, together with proofs about the specification claims.

JS conventions captured by the embedding:
* object maps keyed by integer ids are association lists
  `List (Int × Option α)`; an entry whose value is `none` models a `null`
  tombstone, a missing key models `undefined` (both are falsy);
* `Number(segment)` is modelled for integer-literal and non-numeric
  segments (`""` coerces to `0`, a decimal integer literal to its value,
  anything else to `NaN`, modelled as `none`);
* `xs.splice(xs.indexOf(a), 1)` removes the first occurrence of `a`, and
  removes the last element when `a` is absent (indexOf yields -1);
* property access with an `undefined` key coerces the key to the string
  `"undefined"`.
-/

/-- A comment record as stored in `database.comments`. -/
structure Comment where
  id : Int
  body : String
  username : String
  articleId : Int
  upvotedBy : List String
  downvotedBy : List String
deriving DecidableEq

/-- An article record as stored in `database.articles`.  The `comments`
field models the dynamic property written by `getArticle` onto the stored
record (absent, i.e. `none`, until the first read). -/
structure Article where
  id : Int
  title : String
  url : String
  username : String
  commentIds : List Int
  upvotedBy : List String
  downvotedBy : List String
  comments : Option (List (Option Comment))
deriving DecidableEq

/-- A user record as stored in `database.users`. -/
structure User where
  username : String
  articleIds : List Int
  commentIds : List Int
deriving DecidableEq

/-- The global `database` object. -/
structure Database where
  users : List (String × User)
  articles : List (Int × Option Article)
  nextArticleId : Int
  comments : List (Int × Option Comment)
  nextCommentId : Int
deriving DecidableEq

/-- The initial value of `database` in `server.js`. -/
def initialDatabase : Database :=
  { users := [], articles := [], nextArticleId := 1, comments := [], nextCommentId := 1 }

/-- Parses a non-empty run of decimal digits (accumulator form); any
non-digit character yields `none`. -/
def parseDigitsAux (acc : Nat) : List Char → Option Nat
  | [] => some acc
  | c :: cs => if c.isDigit then parseDigitsAux (acc * 10 + (c.toNat - 48)) cs else none

/-- JS `Number(s)` restricted to the strings this service is exercised
with: the empty string coerces to `0`, an (optionally negated) decimal
integer literal to its value, anything else to `NaN` (`none`). -/
def jsNumber (s : String) : Option Int :=
  match s.data with
  | [] => some 0
  | '-' :: cs =>
    match cs with
    | [] => none
    | _ :: _ => (parseDigitsAux 0 cs).map (fun n => -(n : Int))
  | cs => (parseDigitsAux 0 cs).map (fun n => (n : Int))

/-- JS property-key coercion of a possibly-`undefined` string value. -/
def jsKey (o : Option String) : String :=
  match o with
  | some s => s
  | none => "undefined"

/-- JS `x || y` for a possibly-absent string `x` (empty string is falsy). -/
def jsOrStr (o : Option String) (d : String) : String :=
  match o with
  | some s => if s = "" then d else s
  | none => d

/-- JS `l.splice(l.indexOf(a), 1)`: removes the first occurrence of `a`
when present; when `a` is absent `indexOf` yields `-1` and `splice`
removes the last element instead. -/
def spliceIndexOf (l : List Int) (a : Int) : List Int :=
  if a ∈ l then l.erase a else l.dropLast

/-- JS `String.prototype.split('/')` over the characters of the string:
every `'/'` starts a new piece and empty pieces are kept. -/
def splitCharsOnSlash : List Char → List (List Char)
  | [] => [[]]
  | c :: cs =>
    if c = '/' then [] :: splitCharsOnSlash cs
    else
      match splitCharsOnSlash cs with
      | [] => [[c]]
      | g :: gs => (c :: g) :: gs

/-- The non-empty path segments: `url.split('/').filter(segment => segment)`. -/
def urlSegments (url : String) : List String :=
  ((splitCharsOnSlash url.data).map (fun cs => String.mk cs)).filter (fun s => s ≠ "")

/-- JS string interpolation of `pathSegments[i]` (missing index coerces to
the string `"undefined"`). -/
def segStr (l : List String) (i : Nat) : String :=
  match l[i]? with
  | some s => s
  | none => "undefined"

/-- The id parsed by the handlers: `Number(url.split('/').filter(...)[1])`. -/
def urlId (url : String) : Option Int :=
  match (urlSegments url)[1]? with
  | some s => jsNumber s
  | none => none

/-- Lookup in an id-keyed JS object map: both a missing key (`undefined`)
and a `null` tombstone are returned as `none`. -/
def mapFind (m : List (Int × Option α)) (k : Int) : Option α :=
  match m.lookup k with
  | some (some v) => some v
  | some none => none
  | none => none

/-- Assignment `obj[k] = v` in an id-keyed JS object map: replaces the
entry when the key exists, otherwise appends a new entry. -/
def setKey (m : List (Int × Option α)) (k : Int) (v : Option α) : List (Int × Option α) :=
  if k ∈ m.map Prod.fst then
    m.map (fun p => if p.1 = k then (p.1, v) else p)
  else m ++ [(k, v)]

/-- In-place mutation of the record stored under key `name` in
`database.users` (no-op when the key is absent, where JS would throw). -/
def updateUser (us : List (String × User)) (name : String) (f : User → User) :
    List (String × User) :=
  us.map (fun p => if p.1 = name then (p.1, f p.2) else p)

/-- In-place mutation of the live article stored under key `k` (no-op
when the key is absent or tombstoned, where JS would throw). -/
def updateLiveArticle (m : List (Int × Option Article)) (k : Int) (f : Article → Article) :
    List (Int × Option Article) :=
  m.map (fun p => if p.1 = k then (p.1, p.2.map f) else p)

/-- The two vote lists an entity exposes; `upvote`/`downvote` read and
write nothing else of the entity. -/
structure Votable where
  upvotedBy : List String
  downvotedBy : List String
deriving DecidableEq

/-- The vote engine `upvote(item, username)`: remove `username` from
`downvotedBy` when present (splice at indexOf, guarded by includes), then
push it onto `upvotedBy` when absent. -/
def upvote (item : Votable) (username : String) : Votable :=
  let item1 :=
    if username ∈ item.downvotedBy then
      { item with downvotedBy := item.downvotedBy.erase username }
    else item
  if username ∈ item1.upvotedBy then item1
  else { item1 with upvotedBy := item1.upvotedBy ++ [username] }

/-- The vote engine `downvote(item, username)`, mirror of `upvote`. -/
def downvote (item : Votable) (username : String) : Votable :=
  let item1 :=
    if username ∈ item.upvotedBy then
      { item with upvotedBy := item.upvotedBy.erase username }
    else item
  if username ∈ item1.downvotedBy then item1
  else { item1 with downvotedBy := item1.downvotedBy ++ [username] }

/-- The `request.body.comment` payload (each field possibly absent). -/
structure RequestComment where
  body : Option String
  username : Option String
  articleId : Option Int
deriving DecidableEq

/-- The `request.body.article` payload (each field possibly absent). -/
structure RequestArticle where
  title : Option String
  url : Option String
  username : Option String
deriving DecidableEq

/-- A parsed JSON request body. -/
structure RequestBody where
  username : Option String
  comment : Option RequestComment
  article : Option RequestArticle
deriving DecidableEq

/-- The `{body: ...}` object handlers receive (body absent for GET/DELETE). -/
structure Request where
  body : Option RequestBody
deriving DecidableEq

/-- The JSON value placed in `response.body` by the handlers. -/
inductive ResponseBody where
  | user : User → ResponseBody
  | userFull : User → List (Option Article) → List (Option Comment) → ResponseBody
  | article : Article → ResponseBody
  | articles : List Article → ResponseBody
  | comment : Comment → ResponseBody
deriving DecidableEq

/-- The `{status, body}` envelope a handler returns. -/
structure Response where
  status : Int
  body : Option ResponseBody
deriving DecidableEq

/-- Insertion of an id into a list kept in ascending order. -/
def insertAscInt (a : Int) : List Int → List Int
  | [] => [a]
  | b :: l => if a ≤ b then a :: b :: l else b :: insertAscInt a l

/-- Ascending sort of integer keys: JS `Object.keys` enumerates
integer-like keys in ascending numeric order. -/
def sortKeysAsc : List Int → List Int
  | [] => []
  | a :: l => insertAscInt a (sortKeysAsc l)

/-- Insertion of an article into a list kept in descending id order. -/
def insertDescArticle (a : Article) : List Article → List Article
  | [] => [a]
  | b :: l => if b.id ≤ a.id then a :: b :: l else b :: insertDescArticle a l

/-- The sort `(article1, article2) => article2.id - article1.id`:
descending by id. -/
def sortByDescId : List Article → List Article
  | [] => []
  | a :: l => insertDescArticle a (sortByDescId l)

/-- Handler for `POST /users`: returns the existing user (200) or creates
one when the username is truthy (201), else 400. -/
def getOrCreateUser (url : String) (request : Request) (db : Database) :
    Response × Database :=
  match db.users.lookup (jsKey (request.body.bind (fun b => b.username))) with
  | some user => ({ status := 200, body := some (.user user) }, db)
  | none =>
    match request.body.bind (fun b => b.username) with
    | some n =>
      if n ≠ "" then
        let user : User := { username := n, articleIds := [], commentIds := [] }
        ({ status := 201, body := some (.user user) },
         { db with users := db.users ++ [(n, user)] })
      else ({ status := 400, body := none }, db)
    | none => ({ status := 400, body := none }, db)

/-- Handler for `GET /users/:username`. -/
def getUser (url : String) (request : Request) (db : Database) :
    Response × Database :=
  match (urlSegments url)[1]? with
  | some name =>
    match db.users.lookup name with
    | some user =>
      let userArticles := user.articleIds.map (fun aid => mapFind db.articles aid)
      let userComments := user.commentIds.map (fun cid => mapFind db.comments cid)
      ({ status := 200, body := some (.userFull user userArticles userComments) }, db)
    | none =>
      if name ≠ "" then ({ status := 404, body := none }, db)
      else ({ status := 400, body := none }, db)
  | none => ({ status := 400, body := none }, db)

/-- Handler for `GET /articles`: all live articles, sorted descending by
id (`Object.keys` enumerates ascending, then filter truthy, then sort). -/
def getArticles (url : String) (request : Request) (db : Database) :
    Response × Database :=
  let keys := sortKeysAsc (db.articles.map Prod.fst)
  let live := (keys.map (fun k => mapFind db.articles k)).filterMap (fun o => o)
  ({ status := 200, body := some (.articles (sortByDescId live)) }, db)

/-- Handler for `GET /articles/:id`: on success the resolved `comments`
list is written onto the stored record (JS mutates it through the alias)
and the same record is returned. -/
def getArticle (url : String) (request : Request) (db : Database) :
    Response × Database :=
  match urlId url with
  | none => ({ status := 400, body := none }, db)
  | some id =>
    match mapFind db.articles id with
    | some article =>
      let article2 :=
        { article with
            comments := some (article.commentIds.map (fun cid => mapFind db.comments cid)) }
      ({ status := 200, body := some (.article article2) },
       { db with articles := setKey db.articles id (some article2) })
    | none =>
      if id ≠ 0 then ({ status := 404, body := none }, db)
      else ({ status := 400, body := none }, db)

/-- Handler for `POST /articles`. -/
def createArticle (url : String) (request : Request) (db : Database) :
    Response × Database :=
  match request.body.bind (fun b => b.article) with
  | some ra =>
    match ra.title, ra.url, ra.username with
    | some title, some articleUrl, some username =>
      if title ≠ "" ∧ articleUrl ≠ "" ∧ username ≠ "" ∧ (db.users.lookup username).isSome then
        let article : Article :=
          { id := db.nextArticleId, title := title, url := articleUrl,
            username := username, commentIds := [], upvotedBy := [],
            downvotedBy := [], comments := none }
        ({ status := 201, body := some (.article article) },
         { db with
             articles := setKey db.articles article.id (some article),
             nextArticleId := db.nextArticleId + 1,
             users := updateUser db.users username
               (fun u => { u with articleIds := u.articleIds ++ [article.id] }) })
      else ({ status := 400, body := none }, db)
    | _, _, _ => ({ status := 400, body := none }, db)
  | none => ({ status := 400, body := none }, db)

/-- Handler for `PUT /articles/:id`: falsy-value patch of title and url. -/
def updateArticle (url : String) (request : Request) (db : Database) :
    Response × Database :=
  match urlId url, request.body.bind (fun b => b.article) with
  | some id, some ra =>
    if id ≠ 0 then
      match mapFind db.articles id with
      | some savedArticle =>
        let savedArticle2 :=
          { savedArticle with
              title := jsOrStr ra.title savedArticle.title,
              url := jsOrStr ra.url savedArticle.url }
        ({ status := 200, body := some (.article savedArticle2) },
         { db with articles := setKey db.articles id (some savedArticle2) })
      | none => ({ status := 404, body := none }, db)
    else ({ status := 400, body := none }, db)
  | _, _ => ({ status := 400, body := none }, db)

/-- The cascade inside `deleteArticle`: for each comment id of the deleted
article, tombstone the comment, then splice the enclosing article id (the
source uses `id`, not `commentId`) out of the comment author's
`commentIds`.  When the comment record is missing JS would throw; the
model leaves the users untouched there. -/
def cascadeStep (id : Int) (d : Database) (cid : Int) : Database :=
  let comment := mapFind d.comments cid
  let d2 := { d with comments := setKey d.comments cid none }
  match comment with
  | some c =>
    { d2 with
        users := updateUser d2.users c.username
          (fun u => { u with commentIds := spliceIndexOf u.commentIds id }) }
  | none => d2

/-- The comment cascade of `deleteArticle` over the article's comment ids. -/
def cascadeDelete (id : Int) (commentIds : List Int) (db : Database) : Database :=
  commentIds.foldl (cascadeStep id) db

/-- Handler for `DELETE /articles/:id`: tombstone the article, cascade
over its comments, splice the article id out of the author's
`articleIds`.  Missing article (or `NaN` id) yields 400. -/
def deleteArticle (url : String) (request : Request) (db : Database) :
    Response × Database :=
  match urlId url with
  | none => ({ status := 400, body := none }, db)
  | some id =>
    match mapFind db.articles id with
    | none => ({ status := 400, body := none }, db)
    | some savedArticle =>
      let db1 := { db with articles := setKey db.articles id none }
      let db2 := cascadeDelete id savedArticle.commentIds db1
      let db3 :=
        { db2 with
            users := updateUser db2.users savedArticle.username
              (fun u => { u with articleIds := spliceIndexOf u.articleIds id }) }
      ({ status := 204, body := none }, db3)

/-- Handler for `PUT /articles/:id/upvote`. -/
def upvoteArticle (url : String) (request : Request) (db : Database) :
    Response × Database :=
  match urlId url with
  | none => ({ status := 400, body := none }, db)
  | some id =>
    match mapFind db.articles id with
    | none => ({ status := 400, body := none }, db)
    | some savedArticle =>
      if (db.users.lookup (jsKey (request.body.bind (fun b => b.username)))).isSome then
        let v := upvote { upvotedBy := savedArticle.upvotedBy,
                          downvotedBy := savedArticle.downvotedBy } (jsKey (request.body.bind (fun b => b.username)))
        let savedArticle2 :=
          { savedArticle with upvotedBy := v.upvotedBy, downvotedBy := v.downvotedBy }
        ({ status := 200, body := some (.article savedArticle2) },
         { db with articles := setKey db.articles id (some savedArticle2) })
      else ({ status := 400, body := none }, db)

/-- Handler for `PUT /articles/:id/downvote`. -/
def downvoteArticle (url : String) (request : Request) (db : Database) :
    Response × Database :=
  match urlId url with
  | none => ({ status := 400, body := none }, db)
  | some id =>
    match mapFind db.articles id with
    | none => ({ status := 400, body := none }, db)
    | some savedArticle =>
      if (db.users.lookup (jsKey (request.body.bind (fun b => b.username)))).isSome then
        let v := downvote { upvotedBy := savedArticle.upvotedBy,
                            downvotedBy := savedArticle.downvotedBy } (jsKey (request.body.bind (fun b => b.username)))
        let savedArticle2 :=
          { savedArticle with upvotedBy := v.upvotedBy, downvotedBy := v.downvotedBy }
        ({ status := 200, body := some (.article savedArticle2) },
         { db with articles := setKey db.articles id (some savedArticle2) })
      else ({ status := 400, body := none }, db)

/-- Handler for `POST /comments`. -/
def createComment (url : String) (request : Request) (db : Database) :
    Response × Database :=
  match request.body.bind (fun b => b.comment) with
  | some rc =>
    match rc.body, rc.username, rc.articleId with
    | some b, some username, some articleId =>
      if b ≠ "" ∧ username ≠ "" ∧ (db.users.lookup username).isSome ∧
          articleId ≠ 0 ∧ (mapFind db.articles articleId).isSome then
        let comment : Comment :=
          { id := db.nextCommentId, body := b, username := username,
            articleId := articleId, upvotedBy := [], downvotedBy := [] }
        ({ status := 201, body := some (.comment comment) },
         { db with
             comments := setKey db.comments comment.id (some comment),
             nextCommentId := db.nextCommentId + 1,
             users := updateUser db.users username
               (fun u => { u with commentIds := u.commentIds ++ [comment.id] }),
             articles := updateLiveArticle db.articles articleId
               (fun a => { a with commentIds := a.commentIds ++ [comment.id] }) })
      else ({ status := 400, body := none }, db)
    | _, _, _ => ({ status := 400, body := none }, db)
  | none => ({ status := 400, body := none }, db)

/-- Handler for `PUT /comments/:id`: falsy-value patch of the body. -/
def updateComment (url : String) (request : Request) (db : Database) :
    Response × Database :=
  match urlId url, request.body.bind (fun b => b.comment) with
  | some id, some rc =>
    if id ≠ 0 then
      match mapFind db.comments id with
      | some savedComment =>
        let savedComment2 := { savedComment with body := jsOrStr rc.body savedComment.body }
        ({ status := 200, body := some (.comment savedComment2) },
         { db with comments := setKey db.comments id (some savedComment2) })
      | none => ({ status := 404, body := none }, db)
    else ({ status := 400, body := none }, db)
  | _, _ => ({ status := 400, body := none }, db)

/-- Handler for `DELETE /comments/:id`: removes the comment id from its
author's and its article's `commentIds` (filter by strict inequality),
then tombstones the comment; missing comment yields 404. -/
def deleteComment (url : String) (request : Request) (db : Database) :
    Response × Database :=
  match urlId url with
  | none => ({ status := 404, body := none }, db)
  | some id =>
    match mapFind db.comments id with
    | none => ({ status := 404, body := none }, db)
    | some savedComment =>
      ({ status := 204, body := none },
       { db with
           users := updateUser db.users savedComment.username
             (fun u => { u with commentIds := u.commentIds.filter (fun e => e ≠ id) }),
           articles := updateLiveArticle db.articles savedComment.articleId
             (fun a => { a with commentIds := a.commentIds.filter (fun e => e ≠ id) }),
           comments := setKey db.comments id none })

/-- Handler for `PUT /comments/:id/upvote`. -/
def upvoteComment (url : String) (request : Request) (db : Database) :
    Response × Database :=
  match urlId url with
  | none => ({ status := 400, body := none }, db)
  | some id =>
    match mapFind db.comments id with
    | none => ({ status := 400, body := none }, db)
    | some savedComment =>
      if (db.users.lookup (jsKey (request.body.bind (fun b => b.username)))).isSome then
        let v := upvote { upvotedBy := savedComment.upvotedBy,
                          downvotedBy := savedComment.downvotedBy } (jsKey (request.body.bind (fun b => b.username)))
        let savedComment2 :=
          { savedComment with upvotedBy := v.upvotedBy, downvotedBy := v.downvotedBy }
        ({ status := 200, body := some (.comment savedComment2) },
         { db with comments := setKey db.comments id (some savedComment2) })
      else ({ status := 400, body := none }, db)

/-- Handler for `PUT /comments/:id/downvote`. -/
def downvoteComment (url : String) (request : Request) (db : Database) :
    Response × Database :=
  match urlId url with
  | none => ({ status := 400, body := none }, db)
  | some id =>
    match mapFind db.comments id with
    | none => ({ status := 400, body := none }, db)
    | some savedComment =>
      if (db.users.lookup (jsKey (request.body.bind (fun b => b.username)))).isSome then
        let v := downvote { upvotedBy := savedComment.upvotedBy,
                            downvotedBy := savedComment.downvotedBy } (jsKey (request.body.bind (fun b => b.username)))
        let savedComment2 :=
          { savedComment with upvotedBy := v.upvotedBy, downvotedBy := v.downvotedBy }
        ({ status := 200, body := some (.comment savedComment2) },
         { db with comments := setKey db.comments id (some savedComment2) })
      else ({ status := 400, body := none }, db)

/-- The route resolver `getRequestRoute` of `server.js`. -/
def getRequestRoute (url : String) : String :=
  let pathSegments := urlSegments url
  if pathSegments.length = 1 then
    "/" ++ segStr pathSegments 0
  else if pathSegments[2]? = some "upvote" ∨ pathSegments[2]? = some "downvote" then
    "/" ++ segStr pathSegments 0 ++ "/:id/" ++ segStr pathSegments 2
  else if pathSegments[0]? = some "users" then
    "/" ++ segStr pathSegments 0 ++ "/:username"
  else
    "/" ++ segStr pathSegments 0 ++ "/:id"

/-- The dispatcher: the `routes` table lookup of `requestHandler`
composed with `getRequestRoute`; an unmatched (template, method) pair
yields 400 and leaves the store unchanged. -/
def dispatch (method : String) (url : String) (request : Request) (db : Database) :
    Response × Database :=
  if getRequestRoute url = "/users" ∧ method = "POST" then getOrCreateUser url request db
  else if getRequestRoute url = "/users/:username" ∧ method = "GET" then getUser url request db
  else if getRequestRoute url = "/articles" ∧ method = "GET" then getArticles url request db
  else if getRequestRoute url = "/articles" ∧ method = "POST" then createArticle url request db
  else if getRequestRoute url = "/articles/:id" ∧ method = "GET" then getArticle url request db
  else if getRequestRoute url = "/articles/:id" ∧ method = "PUT" then updateArticle url request db
  else if getRequestRoute url = "/articles/:id" ∧ method = "DELETE" then deleteArticle url request db
  else if getRequestRoute url = "/articles/:id/upvote" ∧ method = "PUT" then upvoteArticle url request db
  else if getRequestRoute url = "/articles/:id/downvote" ∧ method = "PUT" then downvoteArticle url request db
  else if getRequestRoute url = "/comments" ∧ method = "POST" then createComment url request db
  else if getRequestRoute url = "/comments/:id" ∧ method = "PUT" then updateComment url request db
  else if getRequestRoute url = "/comments/:id" ∧ method = "DELETE" then deleteComment url request db
  else if getRequestRoute url = "/comments/:id/upvote" ∧ method = "PUT" then upvoteComment url request db
  else if getRequestRoute url = "/comments/:id/downvote" ∧ method = "PUT" then downvoteComment url request db
  else ({ status := 400, body := none }, db)

/-- One incoming HTTP request, as the dispatcher sees it. -/
structure ReqEvent where
  method : String
  url : String
  request : Request

/-- Runs a sequence of requests against the store (the store outcome of
serialized request processing). -/
def runOps (ops : List ReqEvent) (db : Database) : Database :=
  ops.foldl (fun d e => (dispatch e.method e.url e.request d).2) db

/-! ### Concrete requests and traces used as witnesses -/

/-- A request with no parsed body (GET/DELETE dispatch). -/
def emptyRequest : Request := { body := none }

/-- A `POST /users` body carrying a username. -/
def userRequest (n : String) : Request :=
  { body := some { username := some n, comment := none, article := none } }

/-- A `POST /articles` body. -/
def articleRequest (t u usr : String) : Request :=
  { body := some { username := none, comment := none,
                   article := some { title := some t, url := some u, username := some usr } } }

/-- A `POST /comments` body. -/
def commentRequest (b usr : String) (aid : Int) : Request :=
  { body := some { username := none,
                   comment := some { body := some b, username := some usr, articleId := some aid },
                   article := none } }

/-- A trace exhibiting the `deleteArticle` cascade bug: alice authors
articles 1 and 2, comment 1 on article 2 and comment 2 on article 1, then
article 1 is deleted. -/
def opsC1 : List ReqEvent :=
  [ { method := "POST", url := "/users", request := userRequest "alice" },
    { method := "POST", url := "/articles", request := articleRequest "T1" "u1" "alice" },
    { method := "POST", url := "/articles", request := articleRequest "T2" "u2" "alice" },
    { method := "POST", url := "/comments", request := commentRequest "c1" "alice" 2 },
    { method := "POST", url := "/comments", request := commentRequest "c2" "alice" 1 },
    { method := "DELETE", url := "/articles/1", request := emptyRequest } ]

/-- One user, no articles yet. -/
def opsOneUser : List ReqEvent :=
  [ { method := "POST", url := "/users", request := userRequest "alice" } ]

/-- A store with three articles of which article 2 was deleted. -/
def opsThreeArticles : List ReqEvent :=
  [ { method := "POST", url := "/users", request := userRequest "alice" },
    { method := "POST", url := "/articles", request := articleRequest "T1" "u1" "alice" },
    { method := "POST", url := "/articles", request := articleRequest "T2" "u2" "alice" },
    { method := "POST", url := "/articles", request := articleRequest "T3" "u3" "alice" },
    { method := "DELETE", url := "/articles/2", request := emptyRequest } ]

/-- A store with one user and one live article (id 1). -/
def opsOneArticle : List ReqEvent :=
  [ { method := "POST", url := "/users", request := userRequest "alice" },
    { method := "POST", url := "/articles", request := articleRequest "T" "u" "alice" } ]

/-- A store with one user, one article (id 1) and one comment (id 1). -/
def opsArticleAndComment : List ReqEvent :=
  [ { method := "POST", url := "/users", request := userRequest "alice" },
    { method := "POST", url := "/articles", request := articleRequest "T" "u" "alice" },
    { method := "POST", url := "/comments", request := commentRequest "c" "alice" 1 } ]

/-- The stored article record of `opsOneArticle` / `opsArticleAndComment`
before any comment is added. -/
def articleRecord (cids : List Int) : Article :=
  { id := 1, title := "T", url := "u", username := "alice", commentIds := cids,
    upvotedBy := [], downvotedBy := [], comments := none }

/-! ### Store invariant definitions -/

/-- A predicate holding of the live record of a map entry (trivially true
of a tombstone). -/
def liveOk (P : α → Prop) : Option α → Prop
  | some a => P a
  | none => True

instance {α : Type} (P : α → Prop) [DecidablePred P] (o : Option α) :
    Decidable (liveOk P o) :=
  match o with
  | some a => inferInstanceAs (Decidable (P a))
  | none => inferInstanceAs (Decidable True)

/-- The I3 predicate on a pair of vote lists: no duplicates, and no
username in both lists. -/
def votesOk (up down : List String) : Prop :=
  up.Nodup ∧ down.Nodup ∧ ∀ u ∈ up, u ∉ down

instance (up down : List String) : Decidable (votesOk up down) := by
  unfold votesOk
  infer_instance

/-- The id discipline (I4): every key ever assigned in an entity map,
tombstoned keys included, is below the corresponding counter, and every
comment id listed by a live article is below the comment counter. -/
def IdInv (db : Database) : Prop :=
  (∀ p ∈ db.articles, p.1 < db.nextArticleId) ∧
  (∀ p ∈ db.comments, p.1 < db.nextCommentId) ∧
  (∀ p ∈ db.articles, liveOk (fun a => ∀ cid ∈ a.commentIds, cid < db.nextCommentId) p.2)

/-- The vote discipline (I3): every live article and comment has
duplicate-free, disjoint vote lists. -/
def VoteInv (db : Database) : Prop :=
  (∀ p ∈ db.articles, liveOk (fun a => votesOk a.upvotedBy a.downvotedBy) p.2) ∧
  (∀ p ∈ db.comments, liveOk (fun c => votesOk c.upvotedBy c.downvotedBy) p.2)

instance (db : Database) : Decidable (IdInv db) := by
  unfold IdInv
  infer_instance

instance (db : Database) : Decidable (VoteInv db) := by
  unfold VoteInv
  infer_instance

/-- What a single request execution preserves: both invariants, and the
set of keys ever assigned in either entity map. -/
def Preserves (db db2 : Database) : Prop :=
  (IdInv db → IdInv db2) ∧ (VoteInv db → VoteInv db2) ∧
  (∀ k ∈ db.articles.map Prod.fst, k ∈ db2.articles.map Prod.fst) ∧
  (∀ k ∈ db.comments.map Prod.fst, k ∈ db2.comments.map Prod.fst)

/-! ### Association-list lemmas -/

theorem lookup_mem {β : Type} {m : List (Int × β)} {k : Int} {v : β}
    (h : m.lookup k = some v) : (k, v) ∈ m := by
  induction m with
  | nil => simp [List.lookup] at h
  | cons p m ih =>
    rw [List.lookup] at h
    by_cases hk : k = p.1
    · cases p with
      | mk k1 v1 =>
        simp only [hk, beq_self_eq_true] at h
        cases h
        simp [hk]
    · have : (k == p.1) = false := beq_false_of_ne hk
      rw [this] at h
      exact List.mem_cons_of_mem _ (ih h)

theorem mapFind_mem {α : Type} {m : List (Int × Option α)} {k : Int} {a : α}
    (h : mapFind m k = some a) : (k, some a) ∈ m := by
  unfold mapFind at h
  cases hl : m.lookup k with
  | none => rw [hl] at h; cases h
  | some o =>
    cases o with
    | none => rw [hl] at h; cases h
    | some v => rw [hl] at h; cases h; exact lookup_mem hl

theorem mem_setKey {α : Type} {m : List (Int × Option α)} {k : Int} {v : Option α}
    {p : Int × Option α} (hp : p ∈ setKey m k v) : p ∈ m ∨ p = (k, v) := by
  unfold setKey at hp
  split at hp
  · rcases List.mem_map.1 hp with ⟨q, hq, he⟩
    by_cases h : q.1 = k
    · right; rw [if_pos h] at he; rw [← he, h]
    · left; rw [if_neg h] at he; rw [← he]; exact hq
  · rcases List.mem_append.1 hp with h | h
    · exact Or.inl h
    · right; simpa using h

theorem keys_mapIf {α : Type} (m : List (Int × Option α)) (k : Int) (v : Option α) :
    (m.map (fun p => if p.1 = k then (p.1, v) else p)).map Prod.fst = m.map Prod.fst := by
  induction m with
  | nil => rfl
  | cons p m ih =>
    by_cases h : p.1 = k <;> simp [h, ih]

theorem keys_setKey_mono {α : Type} {m : List (Int × Option α)} {k' : Int}
    (k : Int) (v : Option α) (h : k' ∈ m.map Prod.fst) :
    k' ∈ (setKey m k v).map Prod.fst := by
  unfold setKey
  split
  · rw [keys_mapIf]; exact h
  · rw [List.map_append]; exact List.mem_append_left _ h

theorem key_mem_setKey {α : Type} (m : List (Int × Option α)) (k : Int) (v : Option α) :
    k ∈ (setKey m k v).map Prod.fst := by
  unfold setKey
  split
  · rw [keys_mapIf]; assumption
  · rw [List.map_append]; exact List.mem_append_right _ (by simp)

theorem keys_updateLiveArticle (m : List (Int × Option Article)) (k : Int)
    (f : Article → Article) :
    (updateLiveArticle m k f).map Prod.fst = m.map Prod.fst := by
  unfold updateLiveArticle
  induction m with
  | nil => rfl
  | cons p m ih =>
    by_cases h : p.1 = k <;> simp [h, ih]

theorem mem_updateLiveArticle {m : List (Int × Option Article)} {k : Int}
    {f : Article → Article} {p : Int × Option Article} (hp : p ∈ updateLiveArticle m k f) :
    ∃ q ∈ m, p.1 = q.1 ∧ (p.2 = q.2 ∨ ∃ a, q.2 = some a ∧ p.2 = some (f a)) := by
  unfold updateLiveArticle at hp
  rcases List.mem_map.1 hp with ⟨q, hq, he⟩
  refine ⟨q, hq, ?_⟩
  by_cases h : q.1 = k
  · rw [if_pos h] at he
    cases q with
    | mk q1 q2 =>
      cases q2 with
      | none => rw [← he]; exact ⟨rfl, Or.inl rfl⟩
      | some a => rw [← he]; exact ⟨rfl, Or.inr ⟨a, rfl, rfl⟩⟩
  · rw [if_neg h] at he
    rw [← he]; exact ⟨rfl, Or.inl rfl⟩

theorem lookup_cons_eq {β : Type} (k : Int) (v : β) (l : List (Int × β)) :
    List.lookup k ((k, v) :: l) = some v := by
  simp [List.lookup]

theorem lookup_cons_ne {β : Type} {k a : Int} (v : β) (l : List (Int × β)) (h : k ≠ a) :
    List.lookup k ((a, v) :: l) = List.lookup k l := by
  simp [List.lookup, beq_false_of_ne h]

theorem lookup_mapIf {α : Type} {m : List (Int × Option α)} {k : Int}
    (v : Option α) (h : k ∈ m.map Prod.fst) :
    (m.map (fun p => if p.1 = k then (p.1, v) else p)).lookup k = some v := by
  induction m with
  | nil => simp at h
  | cons p m ih =>
    obtain ⟨k1, v1⟩ := p
    simp only [List.map_cons]
    by_cases hk : k1 = k
    · rw [if_pos hk]
      subst hk
      exact lookup_cons_eq k1 v _
    · rw [if_neg hk]
      rw [lookup_cons_ne v1 _ (fun he => hk he.symm)]
      have hm : k ∈ m.map Prod.fst := by
        rcases List.mem_map.1 h with ⟨q, hq, he⟩
        rcases List.mem_cons.1 hq with hq1 | hq2
        · exact absurd (by rw [hq1] at he; exact he) (fun he2 => hk he2)
        · exact List.mem_map.2 ⟨q, hq2, he⟩
      exact ih hm

theorem lookup_setKey_same {α : Type} {m : List (Int × Option α)} {k : Int}
    (v : Option α) (h : k ∈ m.map Prod.fst) : (setKey m k v).lookup k = some v := by
  unfold setKey
  rw [if_pos h]
  exact lookup_mapIf v h

theorem lookup_setKey_other {α : Type} {m : List (Int × Option α)} {k k' : Int}
    (v : Option α) (h : k' ≠ k) : (setKey m k v).lookup k' = m.lookup k' := by
  unfold setKey
  split
  case isTrue hmem =>
    clear hmem
    induction m with
    | nil => rfl
    | cons p m ih =>
      obtain ⟨k1, v1⟩ := p
      simp only [List.map_cons]
      by_cases hk : k1 = k
      · rw [if_pos hk]
        rw [lookup_cons_ne v _ (fun he => h (he.trans hk))]
        rw [lookup_cons_ne v1 _ (fun he => h (he.trans hk))]
        exact ih
      · rw [if_neg hk]
        by_cases hb : k' = k1
        · subst hb
          rw [lookup_cons_eq, lookup_cons_eq]
        · rw [lookup_cons_ne v1 _ hb, lookup_cons_ne v1 _ hb]
          exact ih
  case isFalse hmem =>
    clear hmem
    induction m with
    | nil =>
      simp only [List.nil_append]
      rw [lookup_cons_ne v _ h]
    | cons p m ih =>
      obtain ⟨k1, v1⟩ := p
      simp only [List.cons_append]
      by_cases hb : k' = k1
      · subst hb
        rw [lookup_cons_eq, lookup_cons_eq]
      · rw [lookup_cons_ne v1 _ hb, lookup_cons_ne v1 _ hb]
        exact ih

theorem mapFind_setKey_same {α : Type} {m : List (Int × Option α)} {k : Int}
    (v : Option α) (h : k ∈ m.map Prod.fst) : mapFind (setKey m k v) k = v := by
  unfold mapFind
  rw [lookup_setKey_same v h]
  cases v <;> rfl

theorem mapFind_setKey_other {α : Type} {m : List (Int × Option α)} {k k' : Int}
    (v : Option α) (h : k' ≠ k) : mapFind (setKey m k v) k' = mapFind m k' := by
  unfold mapFind
  rw [lookup_setKey_other v h]

/-! ### Vote-engine lemmas -/

theorem upvote_eq (e : Votable) (u : String) :
    upvote e u =
      { upvotedBy := if u ∈ e.upvotedBy then e.upvotedBy else e.upvotedBy ++ [u],
        downvotedBy := e.downvotedBy.erase u } := by
  unfold upvote
  by_cases hd : u ∈ e.downvotedBy
  · rw [if_pos hd]
    by_cases hu : u ∈ e.upvotedBy <;> simp [hu]
  · rw [if_neg hd, List.erase_of_not_mem hd]
    by_cases hu : u ∈ e.upvotedBy <;> simp [hu]

theorem downvote_eq (e : Votable) (u : String) :
    downvote e u =
      { upvotedBy := e.upvotedBy.erase u,
        downvotedBy := if u ∈ e.downvotedBy then e.downvotedBy else e.downvotedBy ++ [u] } := by
  unfold downvote
  by_cases hu : u ∈ e.upvotedBy
  · rw [if_pos hu]
    by_cases hd : u ∈ e.downvotedBy <;> simp [hd]
  · rw [if_neg hu, List.erase_of_not_mem hu]
    by_cases hd : u ∈ e.downvotedBy <;> simp [hd]

theorem nodup_push {l : List String} {u : String} (hn : l.Nodup) (hu : u ∉ l) :
    (l ++ [u]).Nodup := by
  rw [List.nodup_append]
  exact ⟨hn, List.nodup_singleton u, by simpa using hu⟩

theorem votesOk_upvote {up down : List String} (u : String) (h : votesOk up down) :
    votesOk (upvote ⟨up, down⟩ u).upvotedBy (upvote ⟨up, down⟩ u).downvotedBy := by
  obtain ⟨h1, h2, h3⟩ := h
  rw [upvote_eq]
  refine ⟨?_, h2.erase u, ?_⟩
  · by_cases hu : u ∈ up
    · simpa [hu] using h1
    · simpa [hu] using nodup_push h1 hu
  · intro x hx
    by_cases hu : u ∈ up
    · rw [if_pos hu] at hx
      exact fun hc => h3 x hx (List.mem_of_mem_erase hc)
    · rw [if_neg hu] at hx
      rcases List.mem_append.1 hx with hx1 | hx1
      · exact fun hc => h3 x hx1 (List.mem_of_mem_erase hc)
      · have : x = u := by simpa using hx1
        subst this
        exact h2.not_mem_erase

theorem votesOk_downvote {up down : List String} (u : String) (h : votesOk up down) :
    votesOk (downvote ⟨up, down⟩ u).upvotedBy (downvote ⟨up, down⟩ u).downvotedBy := by
  obtain ⟨h1, h2, h3⟩ := h
  rw [downvote_eq]
  refine ⟨h1.erase u, ?_, ?_⟩
  · by_cases hd : u ∈ down
    · simpa [hd] using h2
    · simpa [hd] using nodup_push h2 hd
  · intro x hx
    have hxup : x ∈ up := List.mem_of_mem_erase hx
    by_cases hd : u ∈ down
    · rw [if_pos hd]
      exact h3 x hxup
    · rw [if_neg hd]
      intro hc
      rcases List.mem_append.1 hc with hc1 | hc1
      · exact h3 x hxup hc1
      · have : x = u := by simpa using hc1
        subst this
        exact h1.not_mem_erase hx

/-! ### Sorting lemmas -/

theorem insertAscInt_perm (a : Int) (l : List Int) : (insertAscInt a l).Perm (a :: l) := by
  induction l with
  | nil => simp [insertAscInt]
  | cons b l ih =>
    unfold insertAscInt
    by_cases h : a ≤ b
    · rw [if_pos h]
    · rw [if_neg h]
      exact (ih.cons b).trans (List.Perm.swap a b l)

theorem sortKeysAsc_perm (l : List Int) : (sortKeysAsc l).Perm l := by
  induction l with
  | nil => simp [sortKeysAsc]
  | cons a l ih =>
    unfold sortKeysAsc
    exact (insertAscInt_perm a (sortKeysAsc l)).trans (ih.cons a)

theorem insertDescArticle_perm (a : Article) (l : List Article) :
    (insertDescArticle a l).Perm (a :: l) := by
  induction l with
  | nil => simp [insertDescArticle]
  | cons b l ih =>
    unfold insertDescArticle
    by_cases h : b.id ≤ a.id
    · rw [if_pos h]
    · rw [if_neg h]
      exact (ih.cons b).trans (List.Perm.swap a b l)

theorem sortByDescId_perm (l : List Article) : (sortByDescId l).Perm l := by
  induction l with
  | nil => simp [sortByDescId]
  | cons a l ih =>
    unfold sortByDescId
    exact (insertDescArticle_perm a (sortByDescId l)).trans (ih.cons a)

theorem insertDescArticle_pairwise {l : List Article} (a : Article)
    (h : l.Pairwise (fun x y => y.id ≤ x.id)) :
    (insertDescArticle a l).Pairwise (fun x y => y.id ≤ x.id) := by
  induction l with
  | nil => simp [insertDescArticle]
  | cons b l ih =>
    rw [List.pairwise_cons] at h
    obtain ⟨hb, hl⟩ := h
    unfold insertDescArticle
    by_cases hab : b.id ≤ a.id
    · rw [if_pos hab]
      rw [List.pairwise_cons]
      constructor
      · intro x hx
        rcases List.mem_cons.1 hx with hx1 | hx1
        · rw [hx1]; exact hab
        · exact le_trans (hb x hx1) hab
      · rw [List.pairwise_cons]
        exact ⟨hb, hl⟩
    · rw [if_neg hab]
      rw [List.pairwise_cons]
      constructor
      · intro x hx
        have := (insertDescArticle_perm a l).mem_iff.1 hx
        rcases List.mem_cons.1 this with hx1 | hx1
        · rw [hx1]; exact le_of_not_le hab
        · exact hb x hx1
      · exact ih hl

theorem sortByDescId_pairwise (l : List Article) :
    (sortByDescId l).Pairwise (fun x y => y.id ≤ x.id) := by
  induction l with
  | nil => simp [sortByDescId]
  | cons a l ih =>
    unfold sortByDescId
    exact insertDescArticle_pairwise a ih

/-! ### Store invariants -/

theorem liveOk_iff {α : Type} (P : α → Prop) (o : Option α) :
    liveOk P o ↔ ∀ a, o = some a → P a := by
  cases o <;> simp [liveOk]

theorem preserves_self (db : Database) : Preserves db db :=
  ⟨fun h => h, fun h => h, fun _ h => h, fun _ h => h⟩

theorem preserves_usersOnly {db db2 : Database}
    (h1 : db2.articles = db.articles) (h2 : db2.comments = db.comments)
    (h3 : db2.nextArticleId = db.nextArticleId)
    (h4 : db2.nextCommentId = db.nextCommentId) : Preserves db db2 := by
  unfold Preserves IdInv VoteInv
  rw [h1, h2, h3, h4]
  exact ⟨fun h => h, fun h => h, fun _ h => h, fun _ h => h⟩

/-- Overwriting a live article with a record that keeps its comment-id
list and its vote discipline preserves everything tracked. -/
theorem preserves_setArticle {db : Database} {id : Int} {a a2 : Article}
    (ha : mapFind db.articles id = some a)
    (hc : a2.commentIds = a.commentIds)
    (hv : votesOk a.upvotedBy a.downvotedBy → votesOk a2.upvotedBy a2.downvotedBy) :
    Preserves db { db with articles := setKey db.articles id (some a2) } := by
  have hmem : (id, some a) ∈ db.articles := mapFind_mem ha
  refine ⟨?_, ?_, ?_, ?_⟩
  · intro ⟨h1, h2, h3⟩
    refine ⟨?_, h2, ?_⟩
    · intro p hp
      rcases mem_setKey hp with hold | hnew
      · exact h1 p hold
      · rw [hnew]
        exact h1 (id, some a) hmem
    · intro p hp
      rcases mem_setKey hp with hold | hnew
      · exact h3 p hold
      · rw [hnew, liveOk_iff]
        intro b hb
        cases hb
        rw [hc]
        exact (liveOk_iff _ _).1 (h3 (id, some a) hmem) a rfl
  · intro ⟨h1, h2⟩
    refine ⟨?_, h2⟩
    intro p hp
    rcases mem_setKey hp with hold | hnew
    · exact h1 p hold
    · rw [hnew, liveOk_iff]
      intro b hb
      cases hb
      exact hv ((liveOk_iff _ _).1 (h1 (id, some a) hmem) a rfl)
  · exact fun k hk => keys_setKey_mono id (some a2) hk
  · exact fun _ h => h

/-- Overwriting a live comment with a record that keeps its vote
discipline preserves everything tracked. -/
theorem preserves_setComment {db : Database} {id : Int} {c c2 : Comment}
    (hc : mapFind db.comments id = some c)
    (hv : votesOk c.upvotedBy c.downvotedBy → votesOk c2.upvotedBy c2.downvotedBy) :
    Preserves db { db with comments := setKey db.comments id (some c2) } := by
  have hmem : (id, some c) ∈ db.comments := mapFind_mem hc
  refine ⟨?_, ?_, ?_, ?_⟩
  · intro ⟨h1, h2, h3⟩
    refine ⟨h1, ?_, h3⟩
    intro p hp
    rcases mem_setKey hp with hold | hnew
    · exact h2 p hold
    · rw [hnew]
      exact h2 (id, some c) hmem
  · intro ⟨h1, h2⟩
    refine ⟨h1, ?_⟩
    intro p hp
    rcases mem_setKey hp with hold | hnew
    · exact h2 p hold
    · rw [hnew, liveOk_iff]
      intro b hb
      cases hb
      exact hv ((liveOk_iff _ _).1 (h2 (id, some c) hmem) c rfl)
  · exact fun _ h => h
  · exact fun k hk => keys_setKey_mono id (some c2) hk

/-! ### Preservation of the invariants by every handler -/

theorem cascadeDelete_spec (id : Int) (cids : List Int) (db : Database) :
    (cascadeDelete id cids db).articles = db.articles ∧
    (cascadeDelete id cids db).nextArticleId = db.nextArticleId ∧
    (cascadeDelete id cids db).nextCommentId = db.nextCommentId ∧
    (∀ p ∈ (cascadeDelete id cids db).comments,
       p ∈ db.comments ∨ (p.1 ∈ cids ∧ p.2 = none)) ∧
    (∀ k ∈ db.comments.map Prod.fst,
       k ∈ (cascadeDelete id cids db).comments.map Prod.fst) := by
  induction cids generalizing db with
  | nil =>
    refine ⟨rfl, rfl, rfl, fun p hp => Or.inl hp, fun _ h => h⟩
  | cons c rest ih =>
    have heq : cascadeDelete id (c :: rest) db = cascadeDelete id rest (cascadeStep id db c) :=
      rfl
    have ha : (cascadeStep id db c).articles = db.articles := by
      unfold cascadeStep
      cases mapFind db.comments c <;> rfl
    have hn1 : (cascadeStep id db c).nextArticleId = db.nextArticleId := by
      unfold cascadeStep
      cases mapFind db.comments c <;> rfl
    have hn2 : (cascadeStep id db c).nextCommentId = db.nextCommentId := by
      unfold cascadeStep
      cases mapFind db.comments c <;> rfl
    have hcm : (cascadeStep id db c).comments = setKey db.comments c none := by
      unfold cascadeStep
      cases mapFind db.comments c <;> rfl
    set d1 := cascadeStep id db c with hd1
    rw [heq]
    obtain ⟨ih1, ih2, ih3, ih4, ih5⟩ := ih d1
    refine ⟨ih1.trans ha, ih2.trans hn1, ih3.trans hn2, ?_, ?_⟩
    · intro p hp
      rcases ih4 p hp with hin | ⟨hk, hv⟩
      · rw [hcm] at hin
        rcases mem_setKey hin with hold | hnew
        · exact Or.inl hold
        · refine Or.inr ⟨?_, ?_⟩
          · rw [hnew]; exact List.mem_cons_self c rest
          · rw [hnew]
      · exact Or.inr ⟨List.mem_cons_of_mem c hk, hv⟩
    · intro k hk
      refine ih5 k ?_
      rw [hcm]
      exact keys_setKey_mono c none hk

theorem getOrCreateUser_preserves (url : String) (r : Request) (db : Database) :
    Preserves db (getOrCreateUser url r db).2 := by
  unfold getOrCreateUser
  split
  · exact preserves_self db
  · split
    · split
      · exact preserves_usersOnly rfl rfl rfl rfl
      · exact preserves_self db
    · exact preserves_self db

theorem getUser_preserves (url : String) (r : Request) (db : Database) :
    Preserves db (getUser url r db).2 := by
  unfold getUser
  split
  · split
    · exact preserves_self db
    · split
      · exact preserves_self db
      · exact preserves_self db
  · exact preserves_self db

theorem getArticles_preserves (url : String) (r : Request) (db : Database) :
    Preserves db (getArticles url r db).2 :=
  preserves_self db


theorem getArticle_preserves (url : String) (r : Request) (db : Database) :
    Preserves db (getArticle url r db).2 := by
  unfold getArticle
  split
  · exact preserves_self db
  · split
    · rename_i id hid article ha
      exact preserves_setArticle ha rfl (fun h => h)
    · split
      · exact preserves_self db
      · exact preserves_self db

theorem createArticle_preserves (url : String) (r : Request) (db : Database) :
    Preserves db (createArticle url r db).2 := by
  unfold createArticle
  split
  all_goals try exact preserves_self db
  split
  all_goals try exact preserves_self db
  split
  all_goals try exact preserves_self db
  refine ⟨?_, ?_, ?_, ?_⟩
  · intro ⟨h1, h2, h3⟩
    refine ⟨?_, h2, ?_⟩
    · intro p hp
      show p.1 < db.nextArticleId + 1
      rcases mem_setKey hp with hold | hnew
      · have := h1 p hold
        omega
      · rw [hnew]
        simp only
        omega
    · intro p hp
      rcases mem_setKey hp with hold | hnew
      · exact h3 p hold
      · rw [hnew, liveOk_iff]
        intro b hb
        cases hb
        simp
  · intro ⟨h1, h2⟩
    refine ⟨?_, h2⟩
    intro p hp
    rcases mem_setKey hp with hold | hnew
    · exact h1 p hold
    · rw [hnew, liveOk_iff]
      intro b hb
      cases hb
      exact ⟨List.nodup_nil, List.nodup_nil, by simp⟩
  · exact fun k hk => keys_setKey_mono _ _ hk
  · exact fun _ h => h

theorem updateArticle_preserves (url : String) (r : Request) (db : Database) :
    Preserves db (updateArticle url r db).2 := by
  unfold updateArticle
  split
  all_goals try exact preserves_self db
  split
  all_goals try exact preserves_self db
  split
  all_goals try exact preserves_self db
  rename_i id ra hpair a ha
  exact preserves_setArticle ha rfl (fun h => h)

theorem deleteArticle_preserves (url : String) (r : Request) (db : Database) :
    Preserves db (deleteArticle url r db).2 := by
  unfold deleteArticle
  split
  · exact preserves_self db
  · split
    · exact preserves_self db
    · rename_i x1 id hid x2 a ha
      have hmem : (id, some a) ∈ db.articles := mapFind_mem ha
      obtain ⟨c1, c2, c3, c4, c5⟩ :=
        cascadeDelete_spec id a.commentIds { db with articles := setKey db.articles id none }
      have c1b : (cascadeDelete id a.commentIds
          { db with articles := setKey db.articles id none }).articles
            = setKey db.articles id none := c1
      have c4b : ∀ p ∈ (cascadeDelete id a.commentIds
          { db with articles := setKey db.articles id none }).comments,
            p ∈ db.comments ∨ (p.1 ∈ a.commentIds ∧ p.2 = none) := c4
      have c5b : ∀ k ∈ db.comments.map Prod.fst,
          k ∈ (cascadeDelete id a.commentIds
            { db with articles := setKey db.articles id none }).comments.map Prod.fst := c5
      refine ⟨?_, ?_, ?_, ?_⟩
      · intro ⟨h1, h2, h3⟩
        refine ⟨?_, ?_, ?_⟩
        · intro p hp
          have hp2 : p ∈ (cascadeDelete id a.commentIds
              { db with articles := setKey db.articles id none }).articles := hp
          rw [c1b] at hp2
          show p.1 < (cascadeDelete id a.commentIds
            { db with articles := setKey db.articles id none }).nextArticleId
          rw [c2]
          show p.1 < db.nextArticleId
          rcases mem_setKey hp2 with hold | hnew
          · exact h1 p hold
          · rw [hnew]
            exact h1 (id, some a) hmem
        · intro p hp
          have hp2 : p ∈ (cascadeDelete id a.commentIds
              { db with articles := setKey db.articles id none }).comments := hp
          show p.1 < (cascadeDelete id a.commentIds
            { db with articles := setKey db.articles id none }).nextCommentId
          rw [c3]
          show p.1 < db.nextCommentId
          rcases c4b p hp2 with hold | ⟨hcid, hv⟩
          · exact h2 p hold
          · exact (liveOk_iff _ _).1 (h3 (id, some a) hmem) a rfl p.1 hcid
        · intro p hp
          have hp2 : p ∈ (cascadeDelete id a.commentIds
              { db with articles := setKey db.articles id none }).articles := hp
          rw [c1b] at hp2
          show liveOk (fun b => ∀ cid ∈ b.commentIds, cid < (cascadeDelete id a.commentIds
            { db with articles := setKey db.articles id none }).nextCommentId) p.2
          rw [c3]
          show liveOk (fun b => ∀ cid ∈ b.commentIds, cid < db.nextCommentId) p.2
          rcases mem_setKey hp2 with hold | hnew
          · exact h3 p hold
          · rw [hnew]
            exact trivial
      · intro ⟨h1, h2⟩
        refine ⟨?_, ?_⟩
        · intro p hp
          have hp2 : p ∈ (cascadeDelete id a.commentIds
              { db with articles := setKey db.articles id none }).articles := hp
          rw [c1b] at hp2
          show liveOk (fun b => votesOk b.upvotedBy b.downvotedBy) p.2
          rcases mem_setKey hp2 with hold | hnew
          · exact h1 p hold
          · rw [hnew]
            exact trivial
        · intro p hp
          have hp2 : p ∈ (cascadeDelete id a.commentIds
              { db with articles := setKey db.articles id none }).comments := hp
          show liveOk (fun c => votesOk c.upvotedBy c.downvotedBy) p.2
          rcases c4b p hp2 with hold | ⟨hcid, hv⟩
          · exact h2 p hold
          · rw [hv]
            exact trivial
      · intro k hk
        show k ∈ (cascadeDelete id a.commentIds
          { db with articles := setKey db.articles id none }).articles.map Prod.fst
        rw [c1b]
        exact keys_setKey_mono id none hk
      · intro k hk
        exact c5b k hk

theorem upvoteArticle_preserves (url : String) (r : Request) (db : Database) :
    Preserves db (upvoteArticle url r db).2 := by
  unfold upvoteArticle
  split
  · exact preserves_self db
  · split
    · exact preserves_self db
    · split
      · rename_i x1 id hid x2 a ha hcond
        exact preserves_setArticle ha rfl (fun h => votesOk_upvote _ h)
      · exact preserves_self db

theorem downvoteArticle_preserves (url : String) (r : Request) (db : Database) :
    Preserves db (downvoteArticle url r db).2 := by
  unfold downvoteArticle
  split
  · exact preserves_self db
  · split
    · exact preserves_self db
    · split
      · rename_i x1 id hid x2 a ha hcond
        exact preserves_setArticle ha rfl (fun h => votesOk_downvote _ h)
      · exact preserves_self db

theorem upvoteComment_preserves (url : String) (r : Request) (db : Database) :
    Preserves db (upvoteComment url r db).2 := by
  unfold upvoteComment
  split
  · exact preserves_self db
  · split
    · exact preserves_self db
    · split
      · rename_i x1 id hid x2 c hc hcond
        exact preserves_setComment hc (fun h => votesOk_upvote _ h)
      · exact preserves_self db

theorem downvoteComment_preserves (url : String) (r : Request) (db : Database) :
    Preserves db (downvoteComment url r db).2 := by
  unfold downvoteComment
  split
  · exact preserves_self db
  · split
    · exact preserves_self db
    · split
      · rename_i x1 id hid x2 c hc hcond
        exact preserves_setComment hc (fun h => votesOk_downvote _ h)
      · exact preserves_self db

theorem updateComment_preserves (url : String) (r : Request) (db : Database) :
    Preserves db (updateComment url r db).2 := by
  unfold updateComment
  split
  all_goals try exact preserves_self db
  split
  all_goals try exact preserves_self db
  split
  all_goals try exact preserves_self db
  rename_i id rc hpair c hc
  exact preserves_setComment hc (fun h => h)

theorem deleteComment_preserves (url : String) (r : Request) (db : Database) :
    Preserves db (deleteComment url r db).2 := by
  unfold deleteComment
  split
  · exact preserves_self db
  · split
    · exact preserves_self db
    · rename_i x1 id hid x2 c hcfound
      have hmem : (id, some c) ∈ db.comments := mapFind_mem hcfound
      refine ⟨?_, ?_, ?_, ?_⟩
      · intro ⟨h1, h2, h3⟩
        refine ⟨?_, ?_, ?_⟩
        · intro p hp
          show p.1 < db.nextArticleId
          obtain ⟨q, hq, hfst, _⟩ := mem_updateLiveArticle hp
          rw [hfst]
          exact h1 q hq
        · intro p hp
          show p.1 < db.nextCommentId
          rcases mem_setKey hp with hold | hnew
          · exact h2 p hold
          · rw [hnew]
            exact h2 (id, some c) hmem
        · intro p hp
          show liveOk (fun b => ∀ cid ∈ b.commentIds, cid < db.nextCommentId) p.2
          obtain ⟨q, hq, hfst, hval⟩ := mem_updateLiveArticle hp
          have hq3 := h3 q hq
          rcases hval with hsame | ⟨b, hqb, hpb⟩
          · rw [hsame]
            exact hq3
          · rw [hpb, liveOk_iff]
            intro d hd
            cases hd
            intro cid hcid
            have hin : cid ∈ b.commentIds := List.mem_of_mem_filter hcid
            exact (liveOk_iff _ _).1 hq3 b hqb cid hin
      · intro ⟨h1, h2⟩
        refine ⟨?_, ?_⟩
        · intro p hp
          show liveOk (fun b => votesOk b.upvotedBy b.downvotedBy) p.2
          obtain ⟨q, hq, hfst, hval⟩ := mem_updateLiveArticle hp
          have hq1 := h1 q hq
          rcases hval with hsame | ⟨b, hqb, hpb⟩
          · rw [hsame]
            exact hq1
          · rw [hpb, liveOk_iff]
            intro d hd
            cases hd
            exact (liveOk_iff _ _).1 hq1 b hqb
        · intro p hp
          rcases mem_setKey hp with hold | hnew
          · exact h2 p hold
          · rw [hnew, liveOk_iff]
            intro d hd
            cases hd
      · intro k hk
        show k ∈ (updateLiveArticle db.articles _ _).map Prod.fst
        rw [keys_updateLiveArticle]
        exact hk
      · exact fun k hk => keys_setKey_mono _ _ hk

theorem createComment_preserves (url : String) (r : Request) (db : Database) :
    Preserves db (createComment url r db).2 := by
  unfold createComment
  split
  all_goals try exact preserves_self db
  split
  all_goals try exact preserves_self db
  split
  all_goals try exact preserves_self db
  refine ⟨?_, ?_, ?_, ?_⟩
  · intro ⟨h1, h2, h3⟩
    refine ⟨?_, ?_, ?_⟩
    · intro p hp
      show p.1 < db.nextArticleId
      obtain ⟨q, hq, hfst, _⟩ := mem_updateLiveArticle hp
      rw [hfst]
      exact h1 q hq
    · intro p hp
      show p.1 < db.nextCommentId + 1
      rcases mem_setKey hp with hold | hnew
      · have := h2 p hold
        omega
      · rw [hnew]
        simp only
        omega
    · intro p hp
      show liveOk (fun b => ∀ cid ∈ b.commentIds, cid < db.nextCommentId + 1) p.2
      obtain ⟨q, hq, hfst, hval⟩ := mem_updateLiveArticle hp
      have hq3 := h3 q hq
      rcases hval with hsame | ⟨b, hqb, hpb⟩
      · rw [hsame, liveOk_iff]
        intro d hd cid hcid
        have := (liveOk_iff _ _).1 hq3 d hd cid hcid
        omega
      · rw [hpb, liveOk_iff]
        intro d hd
        cases hd
        intro cid hcid
        rcases List.mem_append.1 hcid with hin | hin
        · have := (liveOk_iff _ _).1 hq3 b hqb cid hin
          omega
        · have : cid = db.nextCommentId := by simpa using hin
          omega
  · intro ⟨h1, h2⟩
    refine ⟨?_, ?_⟩
    · intro p hp
      show liveOk (fun b => votesOk b.upvotedBy b.downvotedBy) p.2
      obtain ⟨q, hq, hfst, hval⟩ := mem_updateLiveArticle hp
      have hq1 := h1 q hq
      rcases hval with hsame | ⟨b, hqb, hpb⟩
      · rw [hsame]
        exact hq1
      · rw [hpb, liveOk_iff]
        intro d hd
        cases hd
        exact (liveOk_iff _ _).1 hq1 b hqb
    · intro p hp
      rcases mem_setKey hp with hold | hnew
      · exact h2 p hold
      · rw [hnew, liveOk_iff]
        intro d hd
        cases hd
        exact ⟨List.nodup_nil, List.nodup_nil, by simp⟩
  · intro k hk
    show k ∈ (updateLiveArticle db.articles _ _).map Prod.fst
    rw [keys_updateLiveArticle]
    exact hk
  · exact fun k hk => keys_setKey_mono _ _ hk

theorem preserves_trans {a b c : Database} (h1 : Preserves a b) (h2 : Preserves b c) :
    Preserves a c :=
  ⟨fun h => h2.1 (h1.1 h), fun h => h2.2.1 (h1.2.1 h),
   fun k hk => h2.2.2.1 k (h1.2.2.1 k hk), fun k hk => h2.2.2.2 k (h1.2.2.2 k hk)⟩

theorem dispatch_preserves (method url : String) (r : Request) (db : Database) :
    Preserves db (dispatch method url r db).2 := by
  unfold dispatch
  by_cases h1 : getRequestRoute url = "/users" ∧ method = "POST"
  · rw [if_pos h1]
    exact getOrCreateUser_preserves url r db
  rw [if_neg h1]
  by_cases h2 : getRequestRoute url = "/users/:username" ∧ method = "GET"
  · rw [if_pos h2]
    exact getUser_preserves url r db
  rw [if_neg h2]
  by_cases h3 : getRequestRoute url = "/articles" ∧ method = "GET"
  · rw [if_pos h3]
    exact getArticles_preserves url r db
  rw [if_neg h3]
  by_cases h4 : getRequestRoute url = "/articles" ∧ method = "POST"
  · rw [if_pos h4]
    exact createArticle_preserves url r db
  rw [if_neg h4]
  by_cases h5 : getRequestRoute url = "/articles/:id" ∧ method = "GET"
  · rw [if_pos h5]
    exact getArticle_preserves url r db
  rw [if_neg h5]
  by_cases h6 : getRequestRoute url = "/articles/:id" ∧ method = "PUT"
  · rw [if_pos h6]
    exact updateArticle_preserves url r db
  rw [if_neg h6]
  by_cases h7 : getRequestRoute url = "/articles/:id" ∧ method = "DELETE"
  · rw [if_pos h7]
    exact deleteArticle_preserves url r db
  rw [if_neg h7]
  by_cases h8 : getRequestRoute url = "/articles/:id/upvote" ∧ method = "PUT"
  · rw [if_pos h8]
    exact upvoteArticle_preserves url r db
  rw [if_neg h8]
  by_cases h9 : getRequestRoute url = "/articles/:id/downvote" ∧ method = "PUT"
  · rw [if_pos h9]
    exact downvoteArticle_preserves url r db
  rw [if_neg h9]
  by_cases h10 : getRequestRoute url = "/comments" ∧ method = "POST"
  · rw [if_pos h10]
    exact createComment_preserves url r db
  rw [if_neg h10]
  by_cases h11 : getRequestRoute url = "/comments/:id" ∧ method = "PUT"
  · rw [if_pos h11]
    exact updateComment_preserves url r db
  rw [if_neg h11]
  by_cases h12 : getRequestRoute url = "/comments/:id" ∧ method = "DELETE"
  · rw [if_pos h12]
    exact deleteComment_preserves url r db
  rw [if_neg h12]
  by_cases h13 : getRequestRoute url = "/comments/:id/upvote" ∧ method = "PUT"
  · rw [if_pos h13]
    exact upvoteComment_preserves url r db
  rw [if_neg h13]
  by_cases h14 : getRequestRoute url = "/comments/:id/downvote" ∧ method = "PUT"
  · rw [if_pos h14]
    exact downvoteComment_preserves url r db
  rw [if_neg h14]
  exact preserves_self db

theorem runOps_preserves (ops : List ReqEvent) (db : Database) :
    Preserves db (runOps ops db) := by
  induction ops generalizing db with
  | nil => exact preserves_self db
  | cons e rest ih =>
    exact preserves_trans (dispatch_preserves e.method e.url e.request db)
      (ih (dispatch e.method e.url e.request db).2)

theorem idInv_initial : IdInv initialDatabase := by decide

theorem voteInv_initial : VoteInv initialDatabase := by decide

theorem idInv_runOps (ops : List ReqEvent) : IdInv (runOps ops initialDatabase) :=
  (runOps_preserves ops initialDatabase).1 idInv_initial

theorem voteInv_runOps (ops : List ReqEvent) : VoteInv (runOps ops initialDatabase) :=
  (runOps_preserves ops initialDatabase).2.1 voteInv_initial

/-! ### The claims -/

/-- C1: deleting a live article tombstones it and its comments, but the
claim that each cascaded comment's id is removed from its author's
`commentIds` fails: the source splices `indexOf(id)` with the article id
instead of the comment id.  On `opsC1` (alice's `commentIds` is `[1, 2]`,
article 1 owns comment 2), deleting article 1 leaves alice's `commentIds`
as `[2]` — the tombstoned comment 2 is kept and the live comment 1 was
removed — where the claim demands `[1]`. -/
theorem claims_C1 :
    ((runOps opsC1 initialDatabase).users.lookup "alice").map User.commentIds = some [2] ∧
    ((runOps opsC1 initialDatabase).users.lookup "alice").map User.commentIds ≠ some [1] ∧
    mapFind (runOps opsC1 initialDatabase).articles 1 = none ∧
    mapFind (runOps opsC1 initialDatabase).comments 2 = none ∧
    (mapFind (runOps opsC1 initialDatabase).comments 1).isSome = true ∧
    ((runOps opsC1 initialDatabase).users.lookup "alice").map User.articleIds = some [2] := by
  decide

/-- C2 counterexample: for an entity whose `downvotedBy` holds a username
twice, a second `upvote` still changes the entity (the splice removes only
the first occurrence), so `upvote(upvote(e,u),u) = upvote(e,u)` fails for
arbitrary entities exposing the two vote lists. -/
theorem claims_C2_cex :
    ¬ upvote (upvote { upvotedBy := [], downvotedBy := ["u", "u"] } "u") "u" =
        upvote { upvotedBy := [], downvotedBy := ["u", "u"] } "u" := by
  decide

/-- C2 (amended): for every entity whose vote lists are duplicate-free —
which every store-created entity is — `upvote` and `downvote` are
idempotent and an upvote followed by a downvote (or conversely) with the
same username never leaves the username in both vote lists. -/
theorem claims_C2 (e : Votable) (u : String)
    (hu : e.upvotedBy.Nodup) (hd : e.downvotedBy.Nodup) :
    upvote (upvote e u) u = upvote e u ∧
    downvote (downvote e u) u = downvote e u ∧
    ¬ (u ∈ (downvote (upvote e u) u).upvotedBy ∧
        u ∈ (downvote (upvote e u) u).downvotedBy) ∧
    ¬ (u ∈ (upvote (downvote e u) u).upvotedBy ∧
        u ∈ (upvote (downvote e u) u).downvotedBy) := by
  have hmemU : u ∈ (if u ∈ e.upvotedBy then e.upvotedBy else e.upvotedBy ++ [u]) := by
    by_cases h : u ∈ e.upvotedBy <;> simp [h]
  have hmemD : u ∈ (if u ∈ e.downvotedBy then e.downvotedBy else e.downvotedBy ++ [u]) := by
    by_cases h : u ∈ e.downvotedBy <;> simp [h]
  have hU1 : (if u ∈ e.upvotedBy then e.upvotedBy else e.upvotedBy ++ [u]).Nodup := by
    by_cases h : u ∈ e.upvotedBy
    · simpa [h] using hu
    · simpa [h] using nodup_push hu h
  have hD1 : (if u ∈ e.downvotedBy then e.downvotedBy else e.downvotedBy ++ [u]).Nodup := by
    by_cases h : u ∈ e.downvotedBy
    · simpa [h] using hd
    · simpa [h] using nodup_push hd h
  refine ⟨?_, ?_, ?_, ?_⟩
  · simp only [upvote_eq, Votable.mk.injEq]
    exact ⟨by rw [if_pos hmemU], List.erase_of_not_mem hd.not_mem_erase⟩
  · simp only [downvote_eq, Votable.mk.injEq]
    exact ⟨List.erase_of_not_mem hu.not_mem_erase, by rw [if_pos hmemD]⟩
  · intro hc
    have hup := hc.1
    simp only [upvote_eq, downvote_eq] at hup
    exact hU1.not_mem_erase hup
  · intro hc
    have hdn := hc.2
    simp only [upvote_eq, downvote_eq] at hdn
    exact hD1.not_mem_erase hdn

/-- C2 witness: the amended statement applied at a concrete entity. -/
theorem claims_C2_witness :
    upvote (upvote { upvotedBy := ["a"], downvotedBy := ["b"] } "c") "c" =
        upvote { upvotedBy := ["a"], downvotedBy := ["b"] } "c" ∧
    downvote (downvote { upvotedBy := ["a"], downvotedBy := ["b"] } "c") "c" =
        downvote { upvotedBy := ["a"], downvotedBy := ["b"] } "c" ∧
    ¬ ("c" ∈ (downvote (upvote { upvotedBy := ["a"], downvotedBy := ["b"] } "c") "c").upvotedBy ∧
        "c" ∈ (downvote (upvote { upvotedBy := ["a"], downvotedBy := ["b"] } "c") "c").downvotedBy) ∧
    ¬ ("c" ∈ (upvote (downvote { upvotedBy := ["a"], downvotedBy := ["b"] } "c") "c").upvotedBy ∧
        "c" ∈ (upvote (downvote { upvotedBy := ["a"], downvotedBy := ["b"] } "c") "c").downvotedBy) :=
  claims_C2 { upvotedBy := ["a"], downvotedBy := ["b"] } "c" (by decide) (by decide)

/-- C3: the I3 vote discipline (disjoint, duplicate-free vote lists on
every live article and comment) holds initially, holds of every entity
built by `createArticle`/`createComment`, is preserved by `upvote` and
`downvote`, by every dispatched request, and hence on every reachable
store. -/
theorem claims_C3 :
    VoteInv initialDatabase ∧
    (∀ v : Votable, ∀ u : String, votesOk v.upvotedBy v.downvotedBy →
       votesOk (upvote v u).upvotedBy (upvote v u).downvotedBy ∧
       votesOk (downvote v u).upvotedBy (downvote v u).downvotedBy) ∧
    (∀ url : String, ∀ r : Request, ∀ db : Database, VoteInv db →
       VoteInv (createArticle url r db).2 ∧ VoteInv (createComment url r db).2) ∧
    (∀ method url : String, ∀ r : Request, ∀ db : Database,
       VoteInv db → VoteInv (dispatch method url r db).2) ∧
    (∀ ops : List ReqEvent, VoteInv (runOps ops initialDatabase)) := by
  refine ⟨voteInv_initial, ?_, ?_, ?_, voteInv_runOps⟩
  · intro v u h
    obtain ⟨up, down⟩ := v
    exact ⟨votesOk_upvote u h, votesOk_downvote u h⟩
  · intro url r db h
    exact ⟨(createArticle_preserves url r db).2.1 h,
           (createComment_preserves url r db).2.1 h⟩
  · intro method url r db h
    exact (dispatch_preserves method url r db).2.1 h

/-- C3 witness: the preservation statements applied at concrete inputs. -/
theorem claims_C3_witness :
    votesOk (upvote { upvotedBy := ["a"], downvotedBy := ["b"] } "c").upvotedBy
        (upvote { upvotedBy := ["a"], downvotedBy := ["b"] } "c").downvotedBy ∧
    VoteInv (dispatch "POST" "/users" (userRequest "alice") initialDatabase).2 :=
  ⟨(claims_C3.2.1 { upvotedBy := ["a"], downvotedBy := ["b"] } "c" (by decide)).1,
   claims_C3.2.2.2.1 "POST" "/users" (userRequest "alice") initialDatabase (by decide)⟩

/-- C4: on every reachable store, a successful `createArticle` assigns the
current `nextArticleId`, which is strictly greater than every article id
ever assigned (tombstoned ones included) and becomes an assigned key;
likewise for `createComment`; and no request ever removes an assigned
article or comment key, so deleted ids are never reassigned. -/
theorem claims_C4 (ops : List ReqEvent) (r : Request) :
    ((createArticle "/articles" r (runOps ops initialDatabase)).1.status = 201 →
      ∃ a : Article,
        (createArticle "/articles" r (runOps ops initialDatabase)).1.body =
          some (ResponseBody.article a) ∧
        a.id = (runOps ops initialDatabase).nextArticleId ∧
        (∀ k ∈ (runOps ops initialDatabase).articles.map Prod.fst, k < a.id) ∧
        a.id ∈ ((createArticle "/articles" r (runOps ops initialDatabase)).2.articles.map
          Prod.fst)) ∧
    ((createComment "/comments" r (runOps ops initialDatabase)).1.status = 201 →
      ∃ c : Comment,
        (createComment "/comments" r (runOps ops initialDatabase)).1.body =
          some (ResponseBody.comment c) ∧
        c.id = (runOps ops initialDatabase).nextCommentId ∧
        (∀ k ∈ (runOps ops initialDatabase).comments.map Prod.fst, k < c.id) ∧
        c.id ∈ ((createComment "/comments" r (runOps ops initialDatabase)).2.comments.map
          Prod.fst)) ∧
    (∀ method url : String, ∀ r2 : Request,
      ∀ k ∈ (runOps ops initialDatabase).articles.map Prod.fst,
        k ∈ ((dispatch method url r2 (runOps ops initialDatabase)).2.articles.map Prod.fst)) ∧
    (∀ method url : String, ∀ r2 : Request,
      ∀ k ∈ (runOps ops initialDatabase).comments.map Prod.fst,
        k ∈ ((dispatch method url r2 (runOps ops initialDatabase)).2.comments.map Prod.fst)) := by
  have hinv := idInv_runOps ops
  refine ⟨?_, ?_, ?_, ?_⟩
  · intro hs
    revert hs
    unfold createArticle
    split
    all_goals try (intro hs; simp at hs; done)
    split
    all_goals try (intro hs; simp at hs; done)
    split
    all_goals try (intro hs; simp at hs; done)
    intro hs
    refine ⟨_, rfl, rfl, ?_, ?_⟩
    · intro k hk
      show k < (runOps ops initialDatabase).nextArticleId
      rcases List.mem_map.1 hk with ⟨p, hp, hpk⟩
      rw [← hpk]
      exact hinv.1 p hp
    · exact key_mem_setKey _ _ _
  · intro hs
    revert hs
    unfold createComment
    split
    all_goals try (intro hs; simp at hs; done)
    split
    all_goals try (intro hs; simp at hs; done)
    split
    all_goals try (intro hs; simp at hs; done)
    intro hs
    refine ⟨_, rfl, rfl, ?_, ?_⟩
    · intro k hk
      show k < (runOps ops initialDatabase).nextCommentId
      rcases List.mem_map.1 hk with ⟨p, hp, hpk⟩
      rw [← hpk]
      exact hinv.2.1 p hp
    · exact key_mem_setKey _ _ _
  · intro method url r2 k hk
    exact (dispatch_preserves method url r2 (runOps ops initialDatabase)).2.2.1 k hk
  · intro method url r2 k hk
    exact (dispatch_preserves method url r2 (runOps ops initialDatabase)).2.2.2 k hk

/-- C4 witness: after creating a user, a successful `createArticle` on the
reachable store assigns id 1 with the monotonicity properties. -/
theorem claims_C4_witness :
    ∃ a : Article,
      (createArticle "/articles" (articleRequest "T" "u" "alice")
        (runOps opsOneUser initialDatabase)).1.body = some (ResponseBody.article a) ∧
      a.id = (runOps opsOneUser initialDatabase).nextArticleId ∧
      (∀ k ∈ (runOps opsOneUser initialDatabase).articles.map Prod.fst, k < a.id) ∧
      a.id ∈ ((createArticle "/articles" (articleRequest "T" "u" "alice")
        (runOps opsOneUser initialDatabase)).2.articles.map Prod.fst) :=
  (claims_C4 opsOneUser (articleRequest "T" "u" "alice")).1 (by decide)

theorem lookup_eq_of_mem_nodup {β : Type} {m : List (Int × β)} {k : Int} {v : β}
    (hnd : (m.map Prod.fst).Nodup) (h : (k, v) ∈ m) : m.lookup k = some v := by
  induction m with
  | nil => cases h
  | cons p m ih =>
    obtain ⟨k1, v1⟩ := p
    rw [List.map_cons, List.nodup_cons] at hnd
    obtain ⟨hk1, hnd2⟩ := hnd
    rcases List.mem_cons.1 h with h1 | h2
    · cases h1
      exact lookup_cons_eq k v m
    · by_cases he : k = k1
      · subst he
        exact absurd (List.mem_map.2 ⟨(k, v), h2, rfl⟩) hk1
      · rw [lookup_cons_ne v1 m he]
        exact ih hnd2 h2

theorem mapFind_eq_of_mem_nodup {α : Type} {m : List (Int × Option α)} {k : Int} {a : α}
    (hnd : (m.map Prod.fst).Nodup) (h : (k, some a) ∈ m) : mapFind m k = some a := by
  unfold mapFind
  rw [lookup_eq_of_mem_nodup hnd h]

theorem filterMap_id_map_eq (ks : List Int) (g : Int → Option Article) :
    (ks.map g).filterMap (fun o => o) = ks.filterMap g := by
  induction ks with
  | nil => rfl
  | cons k ks ih =>
    cases h : g k <;> simp only [List.map_cons, List.filterMap_cons, h, ih]

theorem ids_nodup_filterMap (g : Int → Option Article)
    (hg : ∀ k a, g k = some a → a.id = k) :
    ∀ ks : List Int, ks.Nodup → ((ks.filterMap g).map (fun a => a.id)).Nodup := by
  intro ks
  induction ks with
  | nil => simp
  | cons k ks ih =>
    intro hnd
    rw [List.nodup_cons] at hnd
    obtain ⟨hk, hnd2⟩ := hnd
    cases hgk : g k with
    | none => simpa [List.filterMap_cons, hgk] using ih hnd2
    | some a =>
      simp only [List.filterMap_cons, hgk, List.map_cons]
      rw [List.nodup_cons]
      refine ⟨?_, ih hnd2⟩
      intro hmem
      rcases List.mem_map.1 hmem with ⟨b, hb, hba⟩
      rcases List.mem_filterMap.1 hb with ⟨k2, hk2, hgk2⟩
      have hbk2 : b.id = k2 := hg k2 b hgk2
      have hak : a.id = k := hg k a hgk
      have hkk2 : k = k2 := by rw [← hak, ← hba, hbk2]
      exact hk (hkk2 ▸ hk2)

theorem pairwise_strict_of_nodup {l : List Article}
    (hp : l.Pairwise (fun x y => y.id ≤ x.id))
    (hnd : (l.map (fun a => a.id)).Nodup) :
    l.Pairwise (fun x y => y.id < x.id) := by
  have hne : l.Pairwise (fun x y => x.id ≠ y.id) := List.pairwise_map.mp hnd
  exact (hp.and hne).imp (fun h => lt_of_le_of_ne h.1 (Ne.symm h.2))

theorem sortByDescId_ids_nodup {l : List Article}
    (h : (l.map (fun a => a.id)).Nodup) :
    ((sortByDescId l).map (fun a => a.id)).Nodup :=
  (((sortByDescId_perm l).map (fun a => a.id)).nodup_iff).2 h

/-- C5: on every store whose article keys are unique and whose live
records carry their own key as id (true of every reachable store),
`getArticles` answers 200, leaves the store unchanged, and returns
exactly the live (non-tombstoned) articles in strictly descending id
order. -/
theorem claims_C5 (db : Database) (r : Request)
    (hnd : (db.articles.map Prod.fst).Nodup)
    (hid : ∀ p ∈ db.articles, liveOk (fun a => a.id = p.1) p.2) :
    (getArticles "/articles" r db).1.status = 200 ∧
    (getArticles "/articles" r db).2 = db ∧
    ∃ l : List Article,
      (getArticles "/articles" r db).1.body = some (ResponseBody.articles l) ∧
      l.Pairwise (fun x y => y.id < x.id) ∧
      (∀ a : Article, a ∈ l ↔ (a.id, some a) ∈ db.articles) := by
  have hg : ∀ k a, mapFind db.articles k = some a → a.id = k := by
    intro k a hka
    exact (liveOk_iff _ _).1 (hid (k, some a) (mapFind_mem hka)) a rfl
  refine ⟨rfl, rfl, ?_⟩
  refine ⟨_, rfl, ?_, ?_⟩
  · apply pairwise_strict_of_nodup (sortByDescId_pairwise _)
    apply sortByDescId_ids_nodup
    rw [filterMap_id_map_eq]
    exact ids_nodup_filterMap _ hg _ (((sortKeysAsc_perm _).nodup_iff).2 hnd)
  · intro a
    rw [(sortByDescId_perm _).mem_iff, filterMap_id_map_eq, List.mem_filterMap]
    constructor
    · rintro ⟨k, hk, hka⟩
      have hmem := mapFind_mem hka
      have hak : a.id = k := hg k a hka
      rw [hak]
      exact hmem
    · intro hmem
      refine ⟨a.id, ?_, ?_⟩
      · rw [(sortKeysAsc_perm _).mem_iff]
        exact List.mem_map.2 ⟨(a.id, some a), hmem, rfl⟩
      · exact mapFind_eq_of_mem_nodup hnd hmem

/-- C5 witness: on the reachable store with articles 1, 3 live and 2
deleted, `getArticles` lists exactly the live ones in descending order. -/
theorem claims_C5_witness :
    (getArticles "/articles" emptyRequest (runOps opsThreeArticles initialDatabase)).1.status
        = 200 ∧
    (getArticles "/articles" emptyRequest (runOps opsThreeArticles initialDatabase)).2
        = runOps opsThreeArticles initialDatabase ∧
    ∃ l : List Article,
      (getArticles "/articles" emptyRequest
          (runOps opsThreeArticles initialDatabase)).1.body
        = some (ResponseBody.articles l) ∧
      l.Pairwise (fun x y => y.id < x.id) ∧
      (∀ a : Article, a ∈ l ↔
          (a.id, some a) ∈ (runOps opsThreeArticles initialDatabase).articles) :=
  claims_C5 (runOps opsThreeArticles initialDatabase) emptyRequest (by decide) (by decide)

/-- C6: `getRequestRoute` splits the path into non-empty segments and
applies, in order: one segment gives the collection route; a third
segment equal to `upvote` or `downvote` gives the vote route; a first
segment `users` gives the user route; otherwise the id route. -/
theorem claims_C6 (url : String) :
    (∀ s ∈ urlSegments url, s ≠ "") ∧
    (∀ s0, urlSegments url = [s0] → getRequestRoute url = "/" ++ s0) ∧
    (∀ s0 s2, (urlSegments url).length ≠ 1 →
       (urlSegments url)[0]? = some s0 → (urlSegments url)[2]? = some s2 →
       (s2 = "upvote" ∨ s2 = "downvote") →
       getRequestRoute url = "/" ++ s0 ++ "/:id/" ++ s2) ∧
    ((urlSegments url).length ≠ 1 →
       (∀ s2, (urlSegments url)[2]? = some s2 → s2 ≠ "upvote" ∧ s2 ≠ "downvote") →
       (urlSegments url)[0]? = some "users" →
       getRequestRoute url = "/users/:username") ∧
    (∀ s0, (urlSegments url).length ≠ 1 →
       (∀ s2, (urlSegments url)[2]? = some s2 → s2 ≠ "upvote" ∧ s2 ≠ "downvote") →
       (urlSegments url)[0]? = some s0 → s0 ≠ "users" →
       getRequestRoute url = "/" ++ s0 ++ "/:id") := by
  refine ⟨?_, ?_, ?_, ?_, ?_⟩
  · intro s hs
    unfold urlSegments at hs
    simpa using (List.mem_filter.1 hs).2
  · intro s0 h
    unfold getRequestRoute
    rw [h]
    simp [segStr]
  · intro s0 s2 hlen h0 h2 hvote
    unfold getRequestRoute
    rw [if_neg hlen]
    have hcond : (urlSegments url)[2]? = some "upvote" ∨
        (urlSegments url)[2]? = some "downvote" := by
      rcases hvote with hv | hv
      · exact Or.inl (by rw [h2, hv])
      · exact Or.inr (by rw [h2, hv])
    rw [if_pos hcond]
    unfold segStr
    rw [h0, h2]
  · intro hlen hnv h0
    unfold getRequestRoute
    rw [if_neg hlen]
    have hcond : ¬ ((urlSegments url)[2]? = some "upvote" ∨
        (urlSegments url)[2]? = some "downvote") := by
      rintro (hv | hv)
      · exact (hnv "upvote" hv).1 rfl
      · exact (hnv "downvote" hv).2 rfl
    rw [if_neg hcond, if_pos h0]
    unfold segStr
    rw [h0]
    decide
  · intro s0 hlen hnv h0 hus
    unfold getRequestRoute
    rw [if_neg hlen]
    have hcond : ¬ ((urlSegments url)[2]? = some "upvote" ∨
        (urlSegments url)[2]? = some "downvote") := by
      rintro (hv | hv)
      · exact (hnv "upvote" hv).1 rfl
      · exact (hnv "downvote" hv).2 rfl
    rw [if_neg hcond]
    have hne : ¬ (urlSegments url)[0]? = some "users" := by
      intro hc
      rw [h0] at hc
      cases hc
      exact hus rfl
    rw [if_neg hne]
    unfold segStr
    rw [h0]

/-- C6 witness: the vote rule applied at a concrete path. -/
theorem claims_C6_witness :
    getRequestRoute "/articles/1/upvote" = "/" ++ "articles" ++ "/:id/" ++ "upvote" :=
  (claims_C6 "/articles/1/upvote").2.2.1 "articles" "upvote" (by decide) (by decide)
    (by decide) (Or.inl rfl)

theorem jsOrStr_none (d : String) : jsOrStr none d = d := rfl

theorem jsOrStr_some_ne {s : String} (d : String) (h : s ≠ "") : jsOrStr (some s) d = s := by
  simp [jsOrStr, h]

theorem jsOrStr_some_empty (d : String) : jsOrStr (some "") d = d := by
  simp [jsOrStr]

theorem jsOrStr_ne_empty {o : Option String} {d : String} (h : d ≠ "") : jsOrStr o d ≠ "" := by
  cases o with
  | none => exact h
  | some s =>
    by_cases hs : s = ""
    · rw [hs, jsOrStr_some_empty]
      exact h
    · rw [jsOrStr_some_ne d hs]
      exact hs

/-- C7: on a live article and a request with an article body,
`updateArticle` answers 200 and overwrites `title`/`url` only with
provided non-empty values; an absent or empty patch field keeps the prior
value, and a non-empty stored field can never become empty. -/
theorem claims_C7 (url : String) (r : Request) (db : Database) (id : Int) (a : Article)
    (ra : RequestArticle)
    (hid : urlId url = some id) (hz : id ≠ 0)
    (ha : mapFind db.articles id = some a)
    (hra : r.body.bind (fun b => b.article) = some ra) :
    (updateArticle url r db).1.status = 200 ∧
    mapFind (updateArticle url r db).2.articles id =
      some { a with title := jsOrStr ra.title a.title, url := jsOrStr ra.url a.url } ∧
    (∀ s, ra.title = some s → s ≠ "" →
       (mapFind (updateArticle url r db).2.articles id).map Article.title = some s) ∧
    ((ra.title = none ∨ ra.title = some "") →
       (mapFind (updateArticle url r db).2.articles id).map Article.title = some a.title) ∧
    (∀ s, ra.url = some s → s ≠ "" →
       (mapFind (updateArticle url r db).2.articles id).map Article.url = some s) ∧
    ((ra.url = none ∨ ra.url = some "") →
       (mapFind (updateArticle url r db).2.articles id).map Article.url = some a.url) ∧
    (a.title ≠ "" →
       ¬ (mapFind (updateArticle url r db).2.articles id).map Article.title = some "") ∧
    (a.url ≠ "" →
       ¬ (mapFind (updateArticle url r db).2.articles id).map Article.url = some "") := by
  have hkey : id ∈ db.articles.map Prod.fst :=
    List.mem_map.2 ⟨(id, some a), mapFind_mem ha, rfl⟩
  have hres : updateArticle url r db =
      ({ status := 200, body := some (ResponseBody.article
          { a with title := jsOrStr ra.title a.title, url := jsOrStr ra.url a.url }) },
       { db with articles := setKey db.articles id (some { a with title := jsOrStr ra.title a.title, url := jsOrStr ra.url a.url }) }) := by
    unfold updateArticle
    simp only [hid, hra]
    rw [if_pos hz]
    simp only [ha]
  have h2 : mapFind (updateArticle url r db).2.articles id =
      some { a with title := jsOrStr ra.title a.title, url := jsOrStr ra.url a.url } := by
    rw [hres]
    exact mapFind_setKey_same _ hkey
  have htitle : (mapFind (updateArticle url r db).2.articles id).map Article.title
      = some (jsOrStr ra.title a.title) := by
    rw [h2]
    rfl
  have hurl : (mapFind (updateArticle url r db).2.articles id).map Article.url
      = some (jsOrStr ra.url a.url) := by
    rw [h2]
    rfl
  refine ⟨by rw [hres], h2, ?_, ?_, ?_, ?_, ?_, ?_⟩
  · intro s hs hne
    rw [htitle, hs, jsOrStr_some_ne _ hne]
  · intro hcase
    rcases hcase with hc | hc
    · rw [htitle, hc, jsOrStr_none]
    · rw [htitle, hc, jsOrStr_some_empty]
  · intro s hs hne
    rw [hurl, hs, jsOrStr_some_ne _ hne]
  · intro hcase
    rcases hcase with hc | hc
    · rw [hurl, hc, jsOrStr_none]
    · rw [hurl, hc, jsOrStr_some_empty]
  · intro hne
    rw [htitle]
    intro hc
    exact jsOrStr_ne_empty hne (Option.some.inj hc)
  · intro hne
    rw [hurl]
    intro hc
    exact jsOrStr_ne_empty hne (Option.some.inj hc)

/-- C7 witness: patching article 1 with a new title and an empty url
overwrites the title and preserves the stored url. -/
theorem claims_C7_witness :
    mapFind (updateArticle "/articles/1" (articleRequest "New" "" "alice")
        (runOps opsOneArticle initialDatabase)).2.articles 1 =
      some { id := 1, title := "New", url := "u", username := "alice", commentIds := [],
             upvotedBy := [], downvotedBy := [], comments := none } :=
  (claims_C7 "/articles/1" (articleRequest "New" "" "alice")
      (runOps opsOneArticle initialDatabase) 1 (articleRecord [])
      { title := some "New", url := some "", username := some "alice" }
      (by decide) (by decide) (by decide) (by decide)).2.1

/-- C8 counterexample: the segment `0` is numeric (it coerces to the
number 0, not `NaN`) and was never created, yet `getArticle` answers 400,
not the 404 the claim demands for every never-created numeric id. -/
theorem claims_C8_cex :
    (getArticle "/articles/0" emptyRequest initialDatabase).1.status = 400 ∧
    ¬ (getArticle "/articles/0" emptyRequest initialDatabase).1.status = 404 ∧
    jsNumber "0" = some 0 := by
  decide

/-- C8 (amended): a nonzero numeric id with no live article yields 404
with no body; a segment coercing to `NaN` yields 400; the falsy numeric
id 0 (with no live article stored under key 0, true of every reachable
store) also yields 400; in every case the store is returned unchanged. -/
theorem claims_C8 (url : String) (r : Request) (db : Database) :
    (∀ i, urlId url = some i → i ≠ 0 → mapFind db.articles i = none →
       getArticle url r db = ({ status := 404, body := none }, db)) ∧
    (urlId url = none → getArticle url r db = ({ status := 400, body := none }, db)) ∧
    (urlId url = some 0 → mapFind db.articles 0 = none →
       getArticle url r db = ({ status := 400, body := none }, db)) := by
  refine ⟨?_, ?_, ?_⟩
  · intro i hi hz hnone
    unfold getArticle
    simp only [hi, hnone]
    rw [if_pos hz]
  · intro hi
    unfold getArticle
    simp only [hi]
  · intro hi hnone
    unfold getArticle
    simp only [hi, hnone]
    rw [if_neg (fun h => h rfl)]

/-- C8 witness: 404 for the never-created numeric id 999 and 400 for the
non-numeric segment `abc`, both leaving the store unchanged. -/
theorem claims_C8_witness :
    getArticle "/articles/999" emptyRequest initialDatabase
        = ({ status := 404, body := none }, initialDatabase) ∧
    getArticle "/articles/abc" emptyRequest initialDatabase
        = ({ status := 400, body := none }, initialDatabase) :=
  ⟨(claims_C8 "/articles/999" emptyRequest initialDatabase).1 999
      (by decide) (by decide) (by decide),
   (claims_C8 "/articles/abc" emptyRequest initialDatabase).2.1 (by decide)⟩

/-- C9 counterexample: before a read the stored article record carries no
`comments` field; after `GET /articles/1` the stored (canonical) record
retains the assembled `comments` list — `getArticle` mutates the store
through the alias, so the field is persisted, contrary to the claim. -/
theorem claims_C9_cex :
    (mapFind (runOps opsOneArticle initialDatabase).articles 1).map Article.comments
        = some none ∧
    (mapFind (getArticle "/articles/1" emptyRequest
        (runOps opsOneArticle initialDatabase)).2.articles 1).map Article.comments
        = some (some []) := by
  decide

/-- C9 (amended): `getArticle` on a live article assembles the `comments`
list at read time from the store's comment records (entities otherwise
reference each other only by id) but writes it onto the stored article
record, which retains it after the read; everything else in the store is
unchanged. -/
theorem claims_C9 (url : String) (r : Request) (db : Database) (id : Int) (a : Article)
    (hid : urlId url = some id) (ha : mapFind db.articles id = some a) :
    (getArticle url r db).1.status = 200 ∧
    (getArticle url r db).1.body = some (ResponseBody.article
      { a with comments := some (a.commentIds.map (fun cid => mapFind db.comments cid)) }) ∧
    mapFind (getArticle url r db).2.articles id =
      some { a with comments := some (a.commentIds.map (fun cid => mapFind db.comments cid)) } ∧
    (∀ k, ¬ k = id → mapFind (getArticle url r db).2.articles k = mapFind db.articles k) ∧
    (getArticle url r db).2.users = db.users ∧
    (getArticle url r db).2.comments = db.comments ∧
    (getArticle url r db).2.nextArticleId = db.nextArticleId ∧
    (getArticle url r db).2.nextCommentId = db.nextCommentId := by
  have hkey : id ∈ db.articles.map Prod.fst :=
    List.mem_map.2 ⟨(id, some a), mapFind_mem ha, rfl⟩
  have hres : getArticle url r db =
      ({ status := 200, body := some (ResponseBody.article { a with comments := some (a.commentIds.map (fun cid => mapFind db.comments cid)) }) },
       { db with articles := setKey db.articles id (some { a with comments := some (a.commentIds.map (fun cid => mapFind db.comments cid)) }) }) := by
    unfold getArticle
    simp only [hid, ha]
  refine ⟨by rw [hres], by rw [hres], ?_, ?_,
    by rw [hres], by rw [hres], by rw [hres], by rw [hres]⟩
  · rw [hres]
    exact mapFind_setKey_same _ hkey
  · intro k hk
    rw [hres]
    exact mapFind_setKey_other _ hk

/-- C9 witness: reading article 1 stores the assembled (empty) comments
list on the canonical record. -/
theorem claims_C9_witness :
    mapFind (getArticle "/articles/1" emptyRequest
        (runOps opsOneArticle initialDatabase)).2.articles 1 =
      some { id := 1, title := "T", url := "u", username := "alice", commentIds := [],
             upvotedBy := [], downvotedBy := [], comments := some [] } :=
  (claims_C9 "/articles/1" emptyRequest (runOps opsOneArticle initialDatabase) 1
      (articleRecord []) (by decide) (by decide)).2.2.1

/-- C10: with a live target entity and an existing voter, each of the
four vote handlers rewrites only the target's `upvotedBy`/`downvotedBy`
(via the vote engine); the target's other fields, every other article,
comment and user, and both id counters are unchanged. -/
theorem claims_C10 (url : String) (r : Request) (db : Database) (id : Int) (u : String)
    (hid : urlId url = some id)
    (hu : r.body.bind (fun b => b.username) = some u)
    (huser : (db.users.lookup u).isSome = true) :
    (∀ a : Article, mapFind db.articles id = some a →
       (upvoteArticle url r db).1.status = 200 ∧
       (upvoteArticle url r db).2.users = db.users ∧
       (upvoteArticle url r db).2.comments = db.comments ∧
       (upvoteArticle url r db).2.nextArticleId = db.nextArticleId ∧
       (upvoteArticle url r db).2.nextCommentId = db.nextCommentId ∧
       (∀ k, ¬ k = id →
          mapFind (upvoteArticle url r db).2.articles k = mapFind db.articles k) ∧
       mapFind (upvoteArticle url r db).2.articles id =
         some { a with
           upvotedBy := (upvote { upvotedBy := a.upvotedBy, downvotedBy := a.downvotedBy } u).upvotedBy,
           downvotedBy := (upvote { upvotedBy := a.upvotedBy, downvotedBy := a.downvotedBy } u).downvotedBy }) ∧
    (∀ a : Article, mapFind db.articles id = some a →
       (downvoteArticle url r db).1.status = 200 ∧
       (downvoteArticle url r db).2.users = db.users ∧
       (downvoteArticle url r db).2.comments = db.comments ∧
       (downvoteArticle url r db).2.nextArticleId = db.nextArticleId ∧
       (downvoteArticle url r db).2.nextCommentId = db.nextCommentId ∧
       (∀ k, ¬ k = id →
          mapFind (downvoteArticle url r db).2.articles k = mapFind db.articles k) ∧
       mapFind (downvoteArticle url r db).2.articles id =
         some { a with
           upvotedBy := (downvote { upvotedBy := a.upvotedBy, downvotedBy := a.downvotedBy } u).upvotedBy,
           downvotedBy := (downvote { upvotedBy := a.upvotedBy, downvotedBy := a.downvotedBy } u).downvotedBy }) ∧
    (∀ c : Comment, mapFind db.comments id = some c →
       (upvoteComment url r db).1.status = 200 ∧
       (upvoteComment url r db).2.users = db.users ∧
       (upvoteComment url r db).2.articles = db.articles ∧
       (upvoteComment url r db).2.nextArticleId = db.nextArticleId ∧
       (upvoteComment url r db).2.nextCommentId = db.nextCommentId ∧
       (∀ k, ¬ k = id →
          mapFind (upvoteComment url r db).2.comments k = mapFind db.comments k) ∧
       mapFind (upvoteComment url r db).2.comments id =
         some { c with
           upvotedBy := (upvote { upvotedBy := c.upvotedBy, downvotedBy := c.downvotedBy } u).upvotedBy,
           downvotedBy := (upvote { upvotedBy := c.upvotedBy, downvotedBy := c.downvotedBy } u).downvotedBy }) ∧
    (∀ c : Comment, mapFind db.comments id = some c →
       (downvoteComment url r db).1.status = 200 ∧
       (downvoteComment url r db).2.users = db.users ∧
       (downvoteComment url r db).2.articles = db.articles ∧
       (downvoteComment url r db).2.nextArticleId = db.nextArticleId ∧
       (downvoteComment url r db).2.nextCommentId = db.nextCommentId ∧
       (∀ k, ¬ k = id →
          mapFind (downvoteComment url r db).2.comments k = mapFind db.comments k) ∧
       mapFind (downvoteComment url r db).2.comments id =
         some { c with
           upvotedBy := (downvote { upvotedBy := c.upvotedBy, downvotedBy := c.downvotedBy } u).upvotedBy,
           downvotedBy := (downvote { upvotedBy := c.upvotedBy, downvotedBy := c.downvotedBy } u).downvotedBy }) := by
  refine ⟨?_, ?_, ?_, ?_⟩
  · intro a ha
    have hkey : id ∈ db.articles.map Prod.fst :=
      List.mem_map.2 ⟨(id, some a), mapFind_mem ha, rfl⟩
    have hres : upvoteArticle url r db =
        ({ status := 200, body := some (ResponseBody.article { a with upvotedBy := (upvote { upvotedBy := a.upvotedBy, downvotedBy := a.downvotedBy } u).upvotedBy, downvotedBy := (upvote { upvotedBy := a.upvotedBy, downvotedBy := a.downvotedBy } u).downvotedBy }) },
         { db with articles := setKey db.articles id (some { a with upvotedBy := (upvote { upvotedBy := a.upvotedBy, downvotedBy := a.downvotedBy } u).upvotedBy, downvotedBy := (upvote { upvotedBy := a.upvotedBy, downvotedBy := a.downvotedBy } u).downvotedBy }) }) := by
      unfold upvoteArticle
      simp only [hid, ha, hu, jsKey]
      rw [if_pos huser]
    refine ⟨by rw [hres], by rw [hres], by rw [hres], by rw [hres], by rw [hres], ?_, ?_⟩
    · intro k hk
      rw [hres]
      exact mapFind_setKey_other _ hk
    · rw [hres]
      exact mapFind_setKey_same _ hkey
  · intro a ha
    have hkey : id ∈ db.articles.map Prod.fst :=
      List.mem_map.2 ⟨(id, some a), mapFind_mem ha, rfl⟩
    have hres : downvoteArticle url r db =
        ({ status := 200, body := some (ResponseBody.article { a with upvotedBy := (downvote { upvotedBy := a.upvotedBy, downvotedBy := a.downvotedBy } u).upvotedBy, downvotedBy := (downvote { upvotedBy := a.upvotedBy, downvotedBy := a.downvotedBy } u).downvotedBy }) },
         { db with articles := setKey db.articles id (some { a with upvotedBy := (downvote { upvotedBy := a.upvotedBy, downvotedBy := a.downvotedBy } u).upvotedBy, downvotedBy := (downvote { upvotedBy := a.upvotedBy, downvotedBy := a.downvotedBy } u).downvotedBy }) }) := by
      unfold downvoteArticle
      simp only [hid, ha, hu, jsKey]
      rw [if_pos huser]
    refine ⟨by rw [hres], by rw [hres], by rw [hres], by rw [hres], by rw [hres], ?_, ?_⟩
    · intro k hk
      rw [hres]
      exact mapFind_setKey_other _ hk
    · rw [hres]
      exact mapFind_setKey_same _ hkey
  · intro c hc
    have hkey : id ∈ db.comments.map Prod.fst :=
      List.mem_map.2 ⟨(id, some c), mapFind_mem hc, rfl⟩
    have hres : upvoteComment url r db =
        ({ status := 200, body := some (ResponseBody.comment { c with upvotedBy := (upvote { upvotedBy := c.upvotedBy, downvotedBy := c.downvotedBy } u).upvotedBy, downvotedBy := (upvote { upvotedBy := c.upvotedBy, downvotedBy := c.downvotedBy } u).downvotedBy }) },
         { db with comments := setKey db.comments id (some { c with upvotedBy := (upvote { upvotedBy := c.upvotedBy, downvotedBy := c.downvotedBy } u).upvotedBy, downvotedBy := (upvote { upvotedBy := c.upvotedBy, downvotedBy := c.downvotedBy } u).downvotedBy }) }) := by
      unfold upvoteComment
      simp only [hid, hc, hu, jsKey]
      rw [if_pos huser]
    refine ⟨by rw [hres], by rw [hres], by rw [hres], by rw [hres], by rw [hres], ?_, ?_⟩
    · intro k hk
      rw [hres]
      exact mapFind_setKey_other _ hk
    · rw [hres]
      exact mapFind_setKey_same _ hkey
  · intro c hc
    have hkey : id ∈ db.comments.map Prod.fst :=
      List.mem_map.2 ⟨(id, some c), mapFind_mem hc, rfl⟩
    have hres : downvoteComment url r db =
        ({ status := 200, body := some (ResponseBody.comment { c with upvotedBy := (downvote { upvotedBy := c.upvotedBy, downvotedBy := c.downvotedBy } u).upvotedBy, downvotedBy := (downvote { upvotedBy := c.upvotedBy, downvotedBy := c.downvotedBy } u).downvotedBy }) },
         { db with comments := setKey db.comments id (some { c with upvotedBy := (downvote { upvotedBy := c.upvotedBy, downvotedBy := c.downvotedBy } u).upvotedBy, downvotedBy := (downvote { upvotedBy := c.upvotedBy, downvotedBy := c.downvotedBy } u).downvotedBy }) }) := by
      unfold downvoteComment
      simp only [hid, hc, hu, jsKey]
      rw [if_pos huser]
    refine ⟨by rw [hres], by rw [hres], by rw [hres], by rw [hres], by rw [hres], ?_, ?_⟩
    · intro k hk
      rw [hres]
      exact mapFind_setKey_other _ hk
    · rw [hres]
      exact mapFind_setKey_same _ hkey

/-- C10 witness: upvoting article 1 (which owns comment 1) as alice only
adds alice to its `upvotedBy`, leaving users, comments and counters
unchanged. -/
theorem claims_C10_witness :
    (upvoteArticle "/articles/1/upvote" (userRequest "alice")
        (runOps opsArticleAndComment initialDatabase)).2.users =
      (runOps opsArticleAndComment initialDatabase).users ∧
    mapFind (upvoteArticle "/articles/1/upvote" (userRequest "alice")
        (runOps opsArticleAndComment initialDatabase)).2.articles 1 =
      some { id := 1, title := "T", url := "u", username := "alice", commentIds := [1],
             upvotedBy := ["alice"], downvotedBy := [], comments := none } :=
  ⟨((claims_C10 "/articles/1/upvote" (userRequest "alice")
      (runOps opsArticleAndComment initialDatabase) 1 "alice"
      (by decide) (by decide) (by decide)).1 (articleRecord [1]) (by decide)).2.1,
   ((claims_C10 "/articles/1/upvote" (userRequest "alice")
      (runOps opsArticleAndComment initialDatabase) 1 "alice"
      (by decide) (by decide) (by decide)).1 (articleRecord [1]) (by decide)).2.2.2.2.2.2⟩
